import Mathlib

/-!
Verification development for the local evaluation service of trpc-agent-go
(package `evaluation/service/local`): the inference batch executor, its
per-case pipeline, option resolution, callback phases, and the parallel
worker-pool dispatch.

The Go sources are shallowly embedded: pure functions become Lean
functions; the effectful parts (callback invocations, runner calls,
barrier signals, task-parameter recycling) are made observable by
threading an explicit event trace; the scheduling nondeterminism of the
worker pool is a permutation parameter, and pool-submission rejection is
an environment function parameter.  The request context (`context.Context`)
is an opaque type parameter `Ctx`.
-/

namespace EvalSvc

/-- One part of a content payload (`evalset.Part`). -/
structure Part where
  text : String
deriving DecidableEq

/-- Multimodal content (`evalset.Content`). -/
structure Content where
  role : String
  parts : List Part
deriving DecidableEq

/-- One conversation turn (`evalset.Invocation`).  Pointers are `Option`. -/
structure Invocation where
  invocationID : String
  userContent : Option Content
  finalResponse : Option Content
deriving DecidableEq

/-- A chat message (`model.Message`). -/
structure Message where
  role : String
  content : String
deriving DecidableEq

/-- Session bootstrap data (`evalset.SessionInput`); the state map is an
association list. -/
structure SessionInput where
  userID : String
  state : List (String × String)
deriving DecidableEq

/-- Evaluation mode (`evalset.EvalMode`): `EvalModeDefault` (live) or
`EvalModeTrace`. -/
inductive EvalMode where
  | defaultMode
  | trace
deriving DecidableEq

/-- One eval case (`evalset.EvalCase`); slice-of-pointer fields become
lists of options. -/
structure EvalCase where
  evalID : String
  conversation : List (Option Invocation)
  actualConversation : List (Option Invocation)
  sessionInput : Option SessionInput
  evalMode : EvalMode
  contextMessages : List (Option Message)
deriving DecidableEq

/-- An eval set (`evalset.EvalSet`); only the case list is consumed by the
inference path. -/
structure EvalSet where
  evalCases : List (Option EvalCase)
deriving DecidableEq

/-- Result status (`status.EvalStatus`); `unknown` is the Go zero value. -/
inductive EvalStatus where
  | unknown
  | notEvaluated
  | passed
  | failed
deriving DecidableEq

/-- A batch request (`service.InferenceRequest`). -/
structure InferenceRequest where
  appName : String
  evalSetID : String
  evalCaseIDs : List String
deriving DecidableEq

/-- A per-case result (`service.InferenceResult`); the `Inferences` slice
pointer is `Option` (`none` = Go nil slice). -/
structure InferenceResult where
  appName : String
  evalSetID : String
  evalCaseID : String
  evalMode : EvalMode
  sessionID : String
  userID : String
  status : EvalStatus
  errorMessage : String
  inferences : Option (List (Option Invocation))
deriving DecidableEq

/-- Effective agent run options (`agent.RunOptions`): the fields exercised
by the inference path. -/
structure RunOptions where
  injectedContextMessages : List Message
  runtimeState : List (String × String)
deriving DecidableEq

/-- The zero `agent.RunOptions` value. -/
def RunOptions.empty : RunOptions := { injectedContextMessages := [], runtimeState := [] }

/-- A run-option mutator (`agent.RunOption`, a `func(*RunOptions)`),
modelled as a pure update function. -/
abbrev RunOption := RunOptions → RunOptions

/-- Modelled from the spec: `agent.WithInjectedContextMessages` is not
among the sources; per the spec's merge rule (global defaults first, case
messages appended after them) and the repository test
`TestLocalInferenceRunOptionsInjectionOrder`, it appends the given
messages to the accumulated injected-context list. -/
def withInjectedContextMessages (msgs : List Message) : RunOption :=
  fun ro => { ro with injectedContextMessages := ro.injectedContextMessages ++ msgs }

/-- Apply a list of run-option mutators left to right. -/
def applyRunOptions (opts : List RunOption) (ro : RunOptions) : RunOptions :=
  opts.foldl (fun acc f => f acc) ro

/-- The eval-set manager collaborator (`evalset.Manager.Get`). -/
abbrev EvalSetManager (Ctx : Type) := Ctx → String → String → Except String EvalSet

/-- The invocation-runner oracle: the internal package
`service/internal/inference` drives a case conversation against the agent
runtime.  It receives the context, the conversation, the session input,
the session id and the effective (already applied) run options, and
produces the inferred invocations or an error. -/
abbrev RunnerModel (Ctx : Type) :=
  Ctx → List (Option Invocation) → SessionInput → String → RunOptions →
    Except String (List (Option Invocation))

/-- Arguments handed to a before-inference-case callback
(`service.BeforeInferenceCaseArgs`). -/
structure BeforeInferenceCaseArgs where
  request : InferenceRequest
  evalCaseID : String
  sessionID : String

/-- Arguments handed to an after-inference-case callback
(`service.AfterInferenceCaseArgs`). -/
structure AfterInferenceCaseArgs where
  request : InferenceRequest
  result : InferenceResult
  error : Option String
  startTime : Nat

/-- Arguments handed to an after-inference-set callback
(`service.AfterInferenceSetArgs`). -/
structure AfterInferenceSetArgs (Ctx : Type) where
  request : InferenceRequest
  results : Option (List (Option InferenceResult))
  error : Option String
  startTime : Nat

/-- Modelled from the spec: the callback chain (internal package
`evaluation/internal/callback`) runs the hooks registered for a phase in
order; each phase is modelled by the composite handler the chain applies.
The before phases may return a replacement context and an error, mirroring
`callback.RunBeforeInferenceSet` / `callback.RunBeforeInferenceCase`; the
after phases return an error, mirroring `callback.RunAfterInferenceSet` /
`callback.RunAfterInferenceCase`. -/
structure Callbacks (Ctx : Type) where
  runBeforeInferenceSet : Ctx → InferenceRequest → (Option Ctx × Option String)
  runAfterInferenceSet : Ctx → AfterInferenceSetArgs Ctx → Option String
  runBeforeInferenceCase : Ctx → BeforeInferenceCaseArgs → (Option Ctx × Option String)
  runAfterInferenceCase : Ctx → AfterInferenceCaseArgs → Option String

/-- A callback set with no registered hooks. -/
def Callbacks.empty (Ctx : Type) : Callbacks Ctx :=
  { runBeforeInferenceSet := fun _ _ => (none, none)
    runAfterInferenceSet := fun _ _ => none
    runBeforeInferenceCase := fun _ _ => (none, none)
    runAfterInferenceCase := fun _ _ => none }

/-- Effective call options (`service.Options`), restricted to the fields
the inference path reads.  Nil-able handles are `Option`. -/
structure Options (Ctx : Type) where
  evalSetManager : Option (EvalSetManager Ctx)
  sessionIDSupplier : Option (Ctx → String)
  callbacks : Callbacks Ctx
  runOptions : List RunOption
  evalCaseParallelism : Int
  evalCaseParallelInferenceEnabled : Bool
  evalCaseParallelEvaluationEnabled : Bool

/-- A per-call option mutator (`service.Option`, a `func(*Options)`),
modelled as a pure update function applied in order. -/
abbrev ServiceOption (Ctx : Type) := Options Ctx → Options Ctx

/-- The local service instance (`local`), with its stored defaults and the
environment oracles the embedding needs: `newPool` is the outcome of
`ants.NewPoolWithFunc` for a given size (`none` = success),
`evalCaseInferencePoolCache` is the `sync.Once`-memoized construction
outcome, `attachCtxMessages` stands for the helper
`attachContextMessages` (not among the sources), and `clock` is the value
`time.Now` yields. -/
structure LocalService (Ctx : Type) where
  runner : RunnerModel Ctx
  evalSetManager : Option (EvalSetManager Ctx)
  sessionIDSupplier : Option (Ctx → String)
  callbacks : Callbacks Ctx
  runOptions : List RunOption
  evalCaseParallelism : Int
  evalCaseParallelInferenceEnabled : Bool
  evalCaseParallelEvaluationEnabled : Bool
  evalCaseInferencePoolCache : Option (Except String Unit)
  newPool : Int → Option String
  attachCtxMessages : List (Option Invocation) → List (Option Message) → List (Option Invocation)
  clock : Nat

/-- Events a single case's processing emits: the before-case callback
invocation, the invocation-runner call (with session id and the effective
run options it receives), and the after-case callback invocation with its
arguments. -/
inductive CaseEvent (Ctx : Type) where
  | beforeCaseCall (evalCaseID : String) (sessionID : String)
  | runnerInference (sessionID : String) (effectiveOptions : RunOptions)
  | afterCaseCall (args : AfterInferenceCaseArgs)

/-- The recyclable task parameter (`evalCaseInferenceParam`).  Data fields
carry their values; the reference-typed fields (`opts`, `svc`, `results`,
`wg`) are modelled by presence. -/
structure EvalCaseInferenceParam (Ctx : Type) where
  idx : Nat
  ctx : Option Ctx
  req : Option InferenceRequest
  evalCase : Option EvalCase
  opts : Option Unit
  svc : Option Unit
  results : Option Unit
  wg : Option Unit

/-- `evalCaseInferenceParam.reset`: clear every field before returning the
parameter to the pool. -/
def EvalCaseInferenceParam.reset (_p : EvalCaseInferenceParam Ctx) : EvalCaseInferenceParam Ctx :=
  { idx := 0, ctx := none, req := none, evalCase := none,
    opts := none, svc := none, results := none, wg := none }

/-- The zero task parameter (`sync.Pool` fresh allocation). -/
def zeroParam (Ctx : Type) : EvalCaseInferenceParam Ctx :=
  { idx := 0, ctx := none, req := none, evalCase := none,
    opts := none, svc := none, results := none, wg := none }

/-- A task parameter populated for slot `i`, as the submission loop of
`inferEvalCasesParallel` fills it. -/
def populateParam (ctx : Ctx) (req : InferenceRequest) (ec : EvalCase) (i : Nat) :
    EvalCaseInferenceParam Ctx :=
  { idx := i, ctx := some ctx, req := some req, evalCase := some ec,
    opts := some (), svc := some (), results := some (), wg := some () }

/-- Events the batch executor emits: one nested trace per dispatched case,
completion-barrier signals (`wg.Done`), and returns of task parameters to
the recycler (carrying the value released). -/
inductive ExecEvent (Ctx : Type) where
  | caseRun (idx : Nat) (events : List (CaseEvent Ctx))
  | barrierSignal (idx : Nat)
  | paramRelease (param : EvalCaseInferenceParam Ctx)

/-- `newInferenceResult`: the fresh per-case result skeleton. -/
def newInferenceResult (appName evalSetID sessionID : String) (evalCase : EvalCase) :
    InferenceResult :=
  { appName := appName
    evalSetID := evalSetID
    evalCaseID := evalCase.evalID
    evalMode := evalCase.evalMode
    sessionID := sessionID
    userID := match evalCase.sessionInput with
      | some si => si.userID
      | none => ""
    status := .unknown
    errorMessage := ""
    inferences := none }

/-- `newFailedInferenceResult`: stamp a result as failed, record the error
message, and clear the produced inferences. -/
def newFailedInferenceResult (result : InferenceResult) (err : String) : InferenceResult :=
  { result with status := .failed, errorMessage := err, inferences := none }

/-- `errors.Join` of an optional earlier error with a later error, at the
message level: messages of the non-nil operands joined by a newline. -/
def joinErrMessages (err : Option String) (afterErr : String) : String :=
  match err with
  | none => afterErr
  | some e => e ++ "\n" ++ afterErr

/-- `opts.SessionIDSupplier(ctx)`.  A nil supplier would make the Go code
panic; the inference path only reaches this call with options that passed
`resolveInferenceOptions`, where the supplier is non-nil, so the `none`
branch is unreachable and yields a dummy value. -/
def sessionIDOf (opts : Options Ctx) (ctx : Ctx) : String :=
  match opts.sessionIDSupplier with
  | some f => f ctx
  | none => ""

/-- `seedMessagesFromPointers`: dereference the case's context messages,
failing at the first nil entry. -/
def seedMessagesFromPointers (messages : List (Option Message)) :
    Except String (List Message) :=
  match messages with
  | [] => .ok []
  | _ => go messages 0
where
  go : List (Option Message) → Nat → Except String (List Message)
    | [], _ => .ok []
    | none :: _, idx => .error ("context message is nil at index " ++ toString idx)
    | some m :: rest, idx =>
      match go rest (idx + 1) with
      | .ok tail => .ok (m :: tail)
      | .error e => .error e

/-- The validation loop over a recorded actual conversation: the index and
kind (`true` = nil invocation, `false` = nil user content) of the first
violation, if any. -/
def firstInvalidActual : List (Option Invocation) → Nat → Option (Nat × Bool)
  | [], _ => none
  | none :: _, idx => some (idx, true)
  | some inv :: rest, idx =>
    match inv.userContent with
    | none => some (idx, false)
    | some _ => firstInvalidActual rest (idx + 1)

/-- The error-message prefix `inference eval case (evalCaseID=..., sessionID=...): `. -/
def caseMsgPrefix (evalCaseID sessionID : String) : String :=
  "inference eval case (evalCaseID=" ++ evalCaseID ++ ", sessionID=" ++ sessionID ++ "): "

/-- `runBeforeInferenceCaseCallbacks`: run the before-case chain, adopt a
returned context, and wrap any error with case identifiers. -/
def runBeforeInferenceCaseCallbacks (ctx : Ctx) (callbacks : Callbacks Ctx)
    (req : InferenceRequest) (evalCaseID sessionID : String) :
    (Ctx × Option String) × List (CaseEvent Ctx) :=
  let out := callbacks.runBeforeInferenceCase ctx
    { request := req, evalCaseID := evalCaseID, sessionID := sessionID }
  let ctx1 := match out.1 with
    | some c => c
    | none => ctx
  let wrapped := match out.2 with
    | some e => some ("run before inference case callbacks (app=" ++ req.appName ++
        ", evalSetID=" ++ req.evalSetID ++ ", evalCaseID=" ++ evalCaseID ++
        ", sessionID=" ++ sessionID ++ "): " ++ e)
    | none => none
  ((ctx1, wrapped), [.beforeCaseCall evalCaseID sessionID])

/-- `runAfterInferenceCaseCallbacks`: run the after-case chain with the
case's result, processing error and start time, wrapping any error. -/
def runAfterInferenceCaseCallbacks (ctx : Ctx) (callbacks : Callbacks Ctx)
    (req : InferenceRequest) (evalCaseID : String) (result : InferenceResult)
    (err : Option String) (startTime : Nat) :
    Option String × List (CaseEvent Ctx) :=
  let args : AfterInferenceCaseArgs :=
    { request := req, result := result, error := err, startTime := startTime }
  let wrapped := match callbacks.runAfterInferenceCase ctx args with
    | some e => some ("run after inference case callbacks (app=" ++ req.appName ++
        ", evalSetID=" ++ req.evalSetID ++ ", evalCaseID=" ++ evalCaseID ++ "): " ++ e)
    | none => none
  (wrapped, [.afterCaseCall args])

/-- The body of `inferenceEvalCase` from the allocation of the fresh
result onward (source lines 262-332): session-input and mode validation,
the trace-mode branches, and the live-mode runner call.  Returns the
result, the processing error the deferred after-case hook will observe,
and the case events emitted by this part. -/
def inferenceEvalCaseCore (svc : LocalService Ctx) (ctx : Ctx) (req : InferenceRequest)
    (evalCase : EvalCase) (opts : Options Ctx) (sessionID : String) :
    (InferenceResult × Option String) × List (CaseEvent Ctx) :=
  let result := newInferenceResult req.appName req.evalSetID sessionID evalCase
  match evalCase.sessionInput with
  | none =>
    let msg := caseMsgPrefix evalCase.evalID sessionID ++ "session input is nil"
    ((newFailedInferenceResult result msg, some msg), [])
  | some si =>
    if evalCase.actualConversation.length ≠ 0 ∧ evalCase.evalMode ≠ .trace then
      let msg := caseMsgPrefix evalCase.evalID sessionID ++
        "actualConversation is only supported in trace mode"
      ((newFailedInferenceResult result msg, some msg), [])
    else if evalCase.evalMode = .trace then
      if evalCase.actualConversation.length ≠ 0 then
        if evalCase.conversation.length ≠ 0 ∧
            evalCase.actualConversation.length ≠ evalCase.conversation.length then
          let msg := caseMsgPrefix evalCase.evalID sessionID ++
            "actual conversation length " ++ toString evalCase.actualConversation.length ++
            " does not match conversation length " ++ toString evalCase.conversation.length
          ((newFailedInferenceResult result msg, some msg), [])
        else
          match firstInvalidActual evalCase.actualConversation 0 with
          | some (i, true) =>
            let msg := caseMsgPrefix evalCase.evalID sessionID ++
              "actual invocation is nil at index " ++ toString i
            ((newFailedInferenceResult result msg, some msg), [])
          | some (i, false) =>
            let msg := caseMsgPrefix evalCase.evalID sessionID ++
              "actual invocation user content is nil at index " ++ toString i
            ((newFailedInferenceResult result msg, some msg), [])
          | none =>
            (({ result with
                inferences := some evalCase.actualConversation
                status := .passed }, none), [])
      else if evalCase.conversation.length = 0 then
        let msg := caseMsgPrefix evalCase.evalID sessionID ++ "invocations are empty"
        ((newFailedInferenceResult result msg, some msg), [])
      else
        (({ result with inferences := some evalCase.conversation, status := .passed },
          none), [])
    else if evalCase.conversation.length = 0 then
      let msg := caseMsgPrefix evalCase.evalID sessionID ++ "invocations are empty"
      ((newFailedInferenceResult result msg, some msg), [])
    else
      match seedMessagesFromPointers evalCase.contextMessages with
      | .error e =>
        let msg := caseMsgPrefix evalCase.evalID sessionID ++ e
        ((newFailedInferenceResult result msg, some msg), [])
      | .ok seedMessages =>
        let mergedRunOptions := opts.runOptions ++
          (if seedMessages.length > 0 then [withInjectedContextMessages seedMessages] else [])
        let effective := applyRunOptions mergedRunOptions RunOptions.empty
        match svc.runner ctx evalCase.conversation si sessionID effective with
        | .error e =>
          let msg := caseMsgPrefix evalCase.evalID sessionID ++ e
          ((newFailedInferenceResult result msg, some msg),
            [.runnerInference sessionID effective])
        | .ok inferences =>
          (({ result with
              inferences := some (svc.attachCtxMessages inferences evalCase.contextMessages)
              status := .passed }, none),
            [.runnerInference sessionID effective])

/-- `inferenceEvalCase`: the full per-case pipeline.  The nil-case check
and the before-case callbacks run first; only afterwards is the deferred
after-case hook installed, so the two early-failure returns do not run it.
The deferred hook is modelled by explicit sequencing at the end. -/
def inferenceEvalCase (svc : LocalService Ctx) (ctx : Ctx) (req : InferenceRequest)
    (evalCase : Option EvalCase) (opts : Options Ctx) :
    InferenceResult × List (CaseEvent Ctx) :=
  let sessionID := sessionIDOf opts ctx
  match evalCase with
  | none =>
    (newFailedInferenceResult
      { appName := req.appName, evalSetID := req.evalSetID, sessionID := sessionID,
        evalCaseID := "", evalMode := .defaultMode, userID := "",
        status := .unknown, errorMessage := "", inferences := none }
      "eval case is nil", [])
  | some ec =>
    let before := runBeforeInferenceCaseCallbacks ctx opts.callbacks req ec.evalID sessionID
    let ctx1 := before.1.1
    match before.1.2 with
    | some e =>
      (newFailedInferenceResult
        { appName := req.appName, evalSetID := req.evalSetID, sessionID := sessionID,
          evalCaseID := ec.evalID, evalMode := .defaultMode, userID := "",
          status := .unknown, errorMessage := "", inferences := none } e,
        before.2)
    | none =>
      let caseStartTime := svc.clock
      let core := inferenceEvalCaseCore svc ctx1 req ec opts sessionID
      let deferred := runAfterInferenceCaseCallbacks ctx1 opts.callbacks req ec.evalID
        core.1.1 core.1.2 caseStartTime
      let finalResult := match deferred.1 with
        | some afterErr => newFailedInferenceResult core.1.1 (joinErrMessages core.1.2 afterErr)
        | none => core.1.1
      (finalResult, before.2 ++ core.2 ++ deferred.2)

/-- `createEvalCaseInferencePool`: reject non-positive sizes, then
construct the `ants` pool (construction outcome supplied by the
environment oracle `newPool`). -/
def createEvalCaseInferencePool (svc : LocalService Ctx) (size : Int) : Except String Unit :=
  if size ≤ 0 then .error "pool size must be greater than 0"
  else
    match svc.newPool size with
    | some e => .error ("create eval case inference pool: " ++ e)
    | none => .ok ()

/-- `ensureEvalCaseInferencePool`: the `sync.Once`-memoized pool
construction — a previously cached outcome (success or failure) is
returned as is; otherwise the pool is created for the requested size. -/
def ensureEvalCaseInferencePool (svc : LocalService Ctx) (size : Int) : Except String Unit :=
  match svc.evalCaseInferencePoolCache with
  | some r => r
  | none => createEvalCaseInferencePool svc size

/-- `resolveInferenceOptions` defaults: the service's stored options
copied into a fresh `Options` value. -/
def serviceDefaultOptions (svc : LocalService Ctx) : Options Ctx :=
  { evalSetManager := svc.evalSetManager
    sessionIDSupplier := svc.sessionIDSupplier
    callbacks := svc.callbacks
    runOptions := svc.runOptions
    evalCaseParallelism := svc.evalCaseParallelism
    evalCaseParallelInferenceEnabled := svc.evalCaseParallelInferenceEnabled
    evalCaseParallelEvaluationEnabled := svc.evalCaseParallelEvaluationEnabled }

/-- The effective options: service defaults with the per-call mutators
applied in order (later mutators win by overwriting fields). -/
def effectiveInferenceOptions (svc : LocalService Ctx) (opt : List (ServiceOption Ctx)) :
    Options Ctx :=
  opt.foldl (fun o f => f o) (serviceDefaultOptions svc)

/-- `resolveInferenceOptions`: build the effective options and validate
them; with parallel inference enabled, also require a positive worker
count and a successfully initialized worker pool. -/
def resolveInferenceOptions (svc : LocalService Ctx) (opt : List (ServiceOption Ctx)) :
    Except String (Options Ctx) :=
  let callOpts := effectiveInferenceOptions svc opt
  if callOpts.evalSetManager.isNone then .error "eval set manager is nil"
  else if callOpts.sessionIDSupplier.isNone then .error "session id supplier is nil"
  else if callOpts.evalCaseParallelInferenceEnabled then
    if callOpts.evalCaseParallelism ≤ 0 then
      .error "eval case parallelism must be greater than 0"
    else
      match ensureEvalCaseInferencePool svc callOpts.evalCaseParallelism with
      | .error e => .error e
      | .ok _ => .ok callOpts
  else .ok callOpts

/-- `validateInferenceRequest`: nil request, empty app name or empty eval
set id are rejected. -/
def validateInferenceRequest (req : Option InferenceRequest) : Option String :=
  match req with
  | none => some "inference request is nil"
  | some r =>
    if r.appName = "" then some "app name is empty"
    else if r.evalSetID = "" then some "eval set id is empty"
    else none

/-- `loadInferenceEvalCases`: fetch the eval set, drop nil cases, and, if
an explicit id subset was requested, keep only the wanted cases.  A nil
manager would make the Go code panic; the call is only reached with
resolved options, whose manager is non-nil, so the `none` branch is
unreachable and yields an error value. -/
def loadInferenceEvalCases (ctx : Ctx) (req : InferenceRequest)
    (mgr : Option (EvalSetManager Ctx)) : Except String (List EvalCase) :=
  match mgr with
  | none => .error "get eval set: eval set manager is nil"
  | some get =>
    match get ctx req.appName req.evalSetID with
    | .error e => .error ("get eval set: " ++ e)
    | .ok evalSet =>
      let nonNil := evalSet.evalCases.filterMap id
      if req.evalCaseIDs.length = 0 then .ok nonNil
      else .ok (nonNil.filter (fun ec => req.evalCaseIDs.contains ec.evalID))

/-- `inferEvalCasesSerial`: process the cases in array order, appending
each result; the result pointers are all non-nil. -/
def inferEvalCasesSerial (svc : LocalService Ctx) (ctx : Ctx) (req : InferenceRequest)
    (evalCases : List EvalCase) (opts : Options Ctx) :
    List (Option InferenceResult) × List (ExecEvent Ctx) :=
  (evalCases.map (fun ec => some (inferenceEvalCase svc ctx req (some ec) opts).1),
   (evalCases.enum).map (fun p =>
     .caseRun p.1 (inferenceEvalCase svc ctx req (some p.2) opts).2))

/-- The failure result `inferEvalCasesParallel` synthesizes synchronously
for a slot whose pool submission was rejected. -/
def submitFailureResult (ctx : Ctx) (req : InferenceRequest) (opts : Options Ctx)
    (evalCase : EvalCase) (submitErr : String) : InferenceResult :=
  newFailedInferenceResult
    (newInferenceResult req.appName req.evalSetID (sessionIDOf opts ctx) evalCase)
    ("submit inference task for eval case " ++ evalCase.evalID ++ ": " ++ submitErr)

/-- Apply a list of indexed slot writes to a results array (each worker or
fast-fail path stores into its pre-assigned slot). -/
def writeSlots (writes : List (Nat × InferenceResult)) (arr : List (Option InferenceResult)) :
    List (Option InferenceResult) :=
  writes.foldl (fun a p => a.set p.1 (some p.2)) arr

/-- The slot writes the submission loop performs synchronously for
rejected submissions (in submission order). -/
def submitWrites (ctx : Ctx) (req : InferenceRequest) (evalCases : List EvalCase)
    (opts : Options Ctx) (reject : Nat → Option String) : List (Nat × InferenceResult) :=
  (List.range evalCases.length).filterMap (fun i =>
    match reject i, evalCases.get? i with
    | some e, some ec => some (i, submitFailureResult ctx req opts ec e)
    | _, _ => none)

/-- The slot writes the pool workers perform, in completion order
(`sched`): each accepted task stores its case's pipeline outcome into its
pre-assigned slot. -/
def workerWrites (svc : LocalService Ctx) (ctx : Ctx) (req : InferenceRequest)
    (evalCases : List EvalCase) (opts : Options Ctx) (reject : Nat → Option String)
    (sched : List Nat) : List (Nat × InferenceResult) :=
  sched.filterMap (fun j =>
    match reject j, evalCases.get? j with
    | none, some ec => some (j, (inferenceEvalCase svc ctx req (some ec) opts).1)
    | _, _ => none)

/-- Events of the submission loop: a rejected submission signals the
barrier immediately and releases its reset parameter. -/
def submitEventsAt (ctx : Ctx) (req : InferenceRequest) (evalCases : List EvalCase)
    (reject : Nat → Option String) (i : Nat) : List (ExecEvent Ctx) :=
  match reject i, evalCases.get? i with
  | some _, some ec =>
    [.barrierSignal i, .paramRelease (populateParam ctx req ec i).reset]
  | _, _ => []

/-- Events of one worker execution: the case's own trace, the barrier
signal from the deferred `wg.Done`, and the release of the reset
parameter. -/
def workerEventsAt (svc : LocalService Ctx) (ctx : Ctx) (req : InferenceRequest)
    (evalCases : List EvalCase) (opts : Options Ctx) (reject : Nat → Option String)
    (j : Nat) : List (ExecEvent Ctx) :=
  match reject j, evalCases.get? j with
  | none, some ec =>
    [.caseRun j (inferenceEvalCase svc ctx req (some ec) opts).2,
     .barrierSignal j,
     .paramRelease (populateParam ctx req ec j).reset]
  | _, _ => []

/-- The results array of the parallel strategy once the barrier has been
released: the pre-allocated nil array after the synchronous
rejected-submission writes and the worker writes in completion order. -/
def parallelFinalArray (svc : LocalService Ctx) (ctx : Ctx) (req : InferenceRequest)
    (evalCases : List EvalCase) (opts : Options Ctx) (reject : Nat → Option String)
    (sched : List Nat) : List (Option InferenceResult) :=
  writeSlots (workerWrites svc ctx req evalCases opts reject sched)
    (writeSlots (submitWrites ctx req evalCases opts reject)
      (List.replicate evalCases.length none))

/-- The event trace of the parallel strategy: the submission loop's
events, then the workers' events in completion order. -/
def parallelTrace (svc : LocalService Ctx) (ctx : Ctx) (req : InferenceRequest)
    (evalCases : List EvalCase) (opts : Options Ctx) (reject : Nat → Option String)
    (sched : List Nat) : List (ExecEvent Ctx) :=
  (List.range evalCases.length).flatMap (submitEventsAt ctx req evalCases reject)
    ++ sched.flatMap (workerEventsAt svc ctx req evalCases opts reject)

/-- `inferEvalCasesParallel`: ensure the worker pool, pre-allocate the
results array to the case count, submit every case with its pre-assigned
slot index, handle rejected submissions synchronously, and wait for the
barrier.  `reject` is the environment's pool-admission behavior and
`sched` the completion order of the accepted tasks. -/
def inferEvalCasesParallel (svc : LocalService Ctx) (ctx : Ctx) (req : InferenceRequest)
    (evalCases : List EvalCase) (opts : Options Ctx) (reject : Nat → Option String)
    (sched : List Nat) :
    Except String (List (Option InferenceResult) × List (ExecEvent Ctx)) :=
  match ensureEvalCaseInferencePool svc opts.evalCaseParallelism with
  | .error e => .error e
  | .ok _ =>
    .ok (parallelFinalArray svc ctx req evalCases opts reject sched,
         parallelTrace svc ctx req evalCases opts reject sched)

/-- `inferEvalCases`: dispatch to the parallel or the serial strategy
according to the effective options. -/
def inferEvalCases (svc : LocalService Ctx) (ctx : Ctx) (req : InferenceRequest)
    (evalCases : List EvalCase) (opts : Options Ctx) (reject : Nat → Option String)
    (sched : List Nat) :
    Except String (List (Option InferenceResult) × List (ExecEvent Ctx)) :=
  if opts.evalCaseParallelInferenceEnabled then
    inferEvalCasesParallel svc ctx req evalCases opts reject sched
  else
    .ok (inferEvalCasesSerial svc ctx req evalCases opts)

/-- `runBeforeInferenceSetCallbacks`: run the before-set chain, adopt a
returned context, and wrap any error with batch identifiers. -/
def runBeforeInferenceSetCallbacks (ctx : Ctx) (callbacks : Callbacks Ctx)
    (req : InferenceRequest) : Ctx × Option String :=
  let out := callbacks.runBeforeInferenceSet ctx req
  let ctx1 := match out.1 with
    | some c => c
    | none => ctx
  match out.2 with
  | some e => (ctx1, some ("run before inference set callbacks (app=" ++ req.appName ++
      ", evalSetID=" ++ req.evalSetID ++ "): " ++ e))
  | none => (ctx1, none)

/-- `runAfterInferenceSetCallbacks`: run the after-set chain with the
final results, the accumulated error and the batch start time, wrapping
any error. -/
def runAfterInferenceSetCallbacks (ctx : Ctx) (callbacks : Callbacks Ctx)
    (req : InferenceRequest) (results : Option (List (Option InferenceResult)))
    (err : Option String) (startTime : Nat) : Option String :=
  match callbacks.runAfterInferenceSet ctx
    { request := req, results := results, error := err, startTime := startTime } with
  | some e => some ("run after inference set callbacks (app=" ++ req.appName ++
      ", evalSetID=" ++ req.evalSetID ++ "): " ++ e)
  | none => none

/-- `Inference`: the batch entry point.  Request validation, option
resolution and the before-set callbacks run first; their failures return
before the deferred after-set hook is installed.  From then on every
return funnels through the after-set hook, which may override the batch
outcome. -/
def Inference (svc : LocalService Ctx) (ctx : Ctx) (req? : Option InferenceRequest)
    (opt : List (ServiceOption Ctx)) (reject : Nat → Option String) (sched : List Nat) :
    Except String (List (Option InferenceResult)) × List (ExecEvent Ctx) :=
  match req? with
  | none => (.error "validate inference request: inference request is nil", [])
  | some req =>
    if req.appName = "" then (.error "validate inference request: app name is empty", [])
    else if req.evalSetID = "" then
      (.error "validate inference request: eval set id is empty", [])
    else
      match resolveInferenceOptions svc opt with
      | .error e => (.error e, [])
      | .ok callOpts =>
        let before := runBeforeInferenceSetCallbacks ctx callOpts.callbacks req
        let ctx1 := before.1
        match before.2 with
        | some e =>
          (.error ("run before inference set callbacks (app=" ++ req.appName ++
            ", evalSetID=" ++ req.evalSetID ++ "): " ++ e), [])
        | none =>
          let startTime := svc.clock
          let finish : Except String (List (Option InferenceResult)) →
              List (ExecEvent Ctx) →
              Except String (List (Option InferenceResult)) × List (ExecEvent Ctx) :=
            fun r evs =>
              let resultsArg := match r with
                | .ok rs => some rs
                | .error _ => none
              let errArg := match r with
                | .ok _ => none
                | .error e => some e
              match runAfterInferenceSetCallbacks ctx1 callOpts.callbacks req resultsArg
                  errArg startTime with
              | some afterE => (.error afterE, evs)
              | none => (r, evs)
          match loadInferenceEvalCases ctx1 req callOpts.evalSetManager with
          | .error e => finish (.error ("load inference eval cases: " ++ e)) []
          | .ok evalCases =>
            if evalCases.length = 0 then finish (.ok []) []
            else
              match inferEvalCases svc ctx1 req evalCases callOpts reject sched with
              | .error e => finish (.error ("infer eval cases: " ++ e)) []
              | .ok (res, evs) => finish (.ok res) evs

/-- Whether a case event is an after-case callback invocation. -/
def isAfterCaseEvent : CaseEvent Ctx → Bool
  | .afterCaseCall _ => true
  | _ => false

/-- Whether a case event is an invocation-runner call. -/
def isRunnerEvent : CaseEvent Ctx → Bool
  | .runnerInference _ _ => true
  | _ => false

/-- Whether an executor event is the completion-barrier signal of slot `i`. -/
def isBarrierSignalAt (i : Nat) : ExecEvent Ctx → Bool
  | .barrierSignal j => i == j
  | _ => false

/-- The task parameters an executor trace returns to the recycler. -/
def releasedParams : List (ExecEvent Ctx) → List (EvalCaseInferenceParam Ctx) :=
  List.filterMap fun e =>
    match e with
    | .paramRelease p => some p
    | _ => none

/-- The value stored in slot `i` by the parallel strategy: the synthesized
submit-failure result when the submission was rejected, otherwise the
per-case pipeline's outcome for input case `i`. -/
def parallelSlotValue (svc : LocalService Ctx) (ctx : Ctx) (req : InferenceRequest)
    (evalCases : List EvalCase) (opts : Options Ctx) (reject : Nat → Option String)
    (i : Nat) : Option InferenceResult :=
  match evalCases.get? i with
  | none => none
  | some ec =>
    match reject i with
    | some e => some (submitFailureResult ctx req opts ec e)
    | none => some (inferenceEvalCase svc ctx req (some ec) opts).1

lemma writeSlots_length (ws : List (Nat × InferenceResult))
    (arr : List (Option InferenceResult)) : (writeSlots ws arr).length = arr.length := by
  induction ws generalizing arr with
  | nil => rfl
  | cons p rest ih =>
    rw [show writeSlots (p :: rest) arr = writeSlots rest (arr.set p.1 (some p.2)) from rfl,
      ih, List.length_set]

lemma getElem?_writeSlots_of_not_mem (ws : List (Nat × InferenceResult))
    (arr : List (Option InferenceResult)) (i : Nat) (h : ∀ p ∈ ws, p.1 ≠ i) :
    (writeSlots ws arr)[i]? = arr[i]? := by
  induction ws generalizing arr with
  | nil => rfl
  | cons p rest ih =>
    rw [show writeSlots (p :: rest) arr = writeSlots rest (arr.set p.1 (some p.2)) from rfl,
      ih _ (fun q hq => h q (List.mem_cons_of_mem _ hq))]
    exact List.getElem?_set_ne (h p (List.mem_cons_self _ _))

lemma getElem?_writeSlots_of_mem (ws : List (Nat × InferenceResult))
    (arr : List (Option InferenceResult)) (i : Nat) (v : InferenceResult)
    (hmem : (i, v) ∈ ws) (huniq : ∀ p ∈ ws, p.1 = i → p.2 = v) (hlen : i < arr.length) :
    (writeSlots ws arr)[i]? = some (some v) := by
  induction ws generalizing arr with
  | nil => cases hmem
  | cons p rest ih =>
    rw [show writeSlots (p :: rest) arr = writeSlots rest (arr.set p.1 (some p.2)) from rfl]
    by_cases hrest : (i, v) ∈ rest
    · exact ih _ hrest (fun q hq hqi => huniq q (List.mem_cons_of_mem _ hq) hqi)
        (by rw [List.length_set]; exact hlen)
    · have hp : p = (i, v) := by
        rcases List.mem_cons.mp hmem with h | h
        · exact h.symm
        · exact absurd h hrest
      subst hp
      have hnone : ∀ q ∈ rest, q.1 ≠ i := by
        intro q hq hqi
        obtain ⟨q1, q2⟩ := q
        have hv : q2 = v := huniq (q1, q2) (List.mem_cons_of_mem _ hq) hqi
        have hq1 : q1 = i := hqi
        subst hv; subst hq1
        exact hrest hq
      rw [getElem?_writeSlots_of_not_mem _ _ _ hnone]
      exact List.getElem?_set_self hlen

lemma countP_flatMap {α β : Type} (p : α → Bool) (f : β → List α) (l : List β) :
    (l.flatMap f).countP p = (l.map (fun b => (f b).countP p)).sum := by
  induction l with
  | nil => rfl
  | cons b rest ih => simp [List.flatMap_cons, List.countP_append, ih]

lemma sum_map_single (l : List Nat) (i : Nat) (g : Nat → Nat)
    (hg : ∀ j, j ≠ i → g j = 0) : (l.map g).sum = l.count i * g i := by
  induction l with
  | nil => simp
  | cons a rest ih =>
    by_cases ha : a = i
    · subst ha
      simp only [List.map_cons, List.sum_cons, ih, List.count_cons_self]
      ring
    · have hc : (a :: rest).count i = rest.count i := by
        simp [List.count_cons, ha, Ne.symm ha]
      simp only [List.map_cons, List.sum_cons, ih, hg a ha, hc]
      omega

/-- Every entry of `workerWrites` is an accepted slot index paired with
its case's pipeline outcome. -/
lemma workerWrites_spec (svc : LocalService Ctx) (ctx : Ctx) (req : InferenceRequest)
    (evalCases : List EvalCase) (opts : Options Ctx) (reject : Nat → Option String)
    (sched : List Nat) :
    ∀ p ∈ workerWrites svc ctx req evalCases opts reject sched,
      reject p.1 = none ∧ ∀ ec, evalCases.get? p.1 = some ec →
        p.2 = (inferenceEvalCase svc ctx req (some ec) opts).1 := by
  intro p hp
  obtain ⟨j, hjm, hj⟩ := List.mem_filterMap.mp hp
  cases h1 : reject j with
  | some e => rw [h1] at hj; simp at hj
  | none =>
    rw [h1] at hj
    cases h2 : evalCases.get? j with
    | none => rw [h2] at hj; simp at hj
    | some ec0 =>
      rw [h2] at hj
      simp only [Option.some.injEq] at hj
      subst hj
      refine ⟨h1, fun ec hec => ?_⟩
      rw [h2] at hec
      cases hec
      rfl

/-- Every entry of `submitWrites` is a rejected slot index paired with the
synthesized submit-failure result for its case. -/
lemma submitWrites_spec (ctx : Ctx) (req : InferenceRequest) (evalCases : List EvalCase)
    (opts : Options Ctx) (reject : Nat → Option String) :
    ∀ p ∈ submitWrites ctx req evalCases opts reject,
      (reject p.1).isSome ∧ ∀ ec e, evalCases.get? p.1 = some ec → reject p.1 = some e →
        p.2 = submitFailureResult ctx req opts ec e := by
  intro p hp
  obtain ⟨j, hjm, hj⟩ := List.mem_filterMap.mp hp
  cases h1 : reject j with
  | none => rw [h1] at hj; simp at hj
  | some e0 =>
    rw [h1] at hj
    cases h2 : evalCases.get? j with
    | none => rw [h2] at hj; simp at hj
    | some ec0 =>
      rw [h2] at hj
      simp only [Option.some.injEq] at hj
      subst hj
      refine ⟨by rw [h1]; rfl, fun ec e hec he => ?_⟩
      rw [h2] at hec
      rw [h1] at he
      cases hec
      cases he
      rfl

/-- The central scatter-gather fact: whatever the completion order (any
permutation of the slot indices) and whatever the admission behavior,
slot `i` of the parallel results array holds exactly the value produced
for input case `i`. -/
lemma parallelFinalArray_getElem (svc : LocalService Ctx) (ctx : Ctx)
    (req : InferenceRequest) (evalCases : List EvalCase) (opts : Options Ctx)
    (reject : Nat → Option String) (sched : List Nat)
    (hsched : sched.Perm (List.range evalCases.length)) (i : Nat)
    (hi : i < evalCases.length) :
    (parallelFinalArray svc ctx req evalCases opts reject sched)[i]? =
      some (parallelSlotValue svc ctx req evalCases opts reject i) := by
  obtain ⟨ec, hec⟩ : ∃ ec, evalCases.get? i = some ec := by
    rw [List.get?_eq_getElem?]
    exact ⟨evalCases[i], List.getElem?_eq_getElem hi⟩
  have hleninit : (List.replicate evalCases.length (none : Option InferenceResult)).length
      = evalCases.length := List.length_replicate _ _
  have hlensub : (writeSlots (submitWrites ctx req evalCases opts reject)
      (List.replicate evalCases.length none)).length = evalCases.length := by
    rw [writeSlots_length, hleninit]
  cases hrej : reject i with
  | some e =>
    have hnoworker : ∀ p ∈ workerWrites svc ctx req evalCases opts reject sched,
        p.1 ≠ i := by
      intro p hp hpi
      have := (workerWrites_spec svc ctx req evalCases opts reject sched p hp).1
      rw [hpi, hrej] at this
      cases this
    rw [parallelFinalArray, getElem?_writeSlots_of_not_mem _ _ _ hnoworker]
    have hmem : (i, submitFailureResult ctx req opts ec e) ∈
        submitWrites ctx req evalCases opts reject := by
      apply List.mem_filterMap.mpr
      refine ⟨i, List.mem_range.mpr hi, ?_⟩
      show (match reject i, evalCases.get? i with
        | some e, some ec => some (i, submitFailureResult ctx req opts ec e)
        | _, _ => none) = _
      rw [hrej, hec]
    have huniq : ∀ p ∈ submitWrites ctx req evalCases opts reject, p.1 = i →
        p.2 = submitFailureResult ctx req opts ec e := by
      intro p hp hpi
      have hs := (submitWrites_spec ctx req evalCases opts reject p hp).2 ec e
      rw [hpi] at hs
      exact hs hec hrej
    rw [getElem?_writeSlots_of_mem _ _ _ _ hmem huniq (by rw [hleninit]; exact hi)]
    rw [parallelSlotValue, hec, hrej]
  | none =>
    have hmem : (i, (inferenceEvalCase svc ctx req (some ec) opts).1) ∈
        workerWrites svc ctx req evalCases opts reject sched := by
      apply List.mem_filterMap.mpr
      refine ⟨i, (hsched.mem_iff).mpr (List.mem_range.mpr hi), ?_⟩
      show (match reject i, evalCases.get? i with
        | none, some ec => some (i, (inferenceEvalCase svc ctx req (some ec) opts).1)
        | _, _ => none) = _
      rw [hrej, hec]
    have huniq : ∀ p ∈ workerWrites svc ctx req evalCases opts reject sched, p.1 = i →
        p.2 = (inferenceEvalCase svc ctx req (some ec) opts).1 := by
      intro p hp hpi
      have hs := (workerWrites_spec svc ctx req evalCases opts reject sched p hp).2 ec
      rw [hpi] at hs
      exact hs hec
    rw [parallelFinalArray,
      getElem?_writeSlots_of_mem _ _ _ _ hmem huniq (by rw [hlensub]; exact hi)]
    rw [parallelSlotValue, hec, hrej]

lemma parallelFinalArray_length (svc : LocalService Ctx) (ctx : Ctx)
    (req : InferenceRequest) (evalCases : List EvalCase) (opts : Options Ctx)
    (reject : Nat → Option String) (sched : List Nat) :
    (parallelFinalArray svc ctx req evalCases opts reject sched).length =
      evalCases.length := by
  rw [parallelFinalArray, writeSlots_length, writeSlots_length, List.length_replicate]

/-!  Concrete fixtures shared by the witness theorems. -/

/-- A runner oracle for witnesses: echoes an empty inference list. -/
def wRunner : RunnerModel Unit := fun _ _ _ _ _ => .ok []

/-- A user-content payload for witnesses. -/
def wContent : Content := { role := "user", parts := [{ text := "hi" }] }

/-- A single-turn conversation invocation for witnesses. -/
def wInvocation : Invocation :=
  { invocationID := "inv-1", userContent := some wContent, finalResponse := none }

/-- A trace-mode eval case for witnesses. -/
def wCase (id : String) : EvalCase :=
  { evalID := id
    conversation := [some wInvocation]
    actualConversation := []
    sessionInput := some { userID := "user", state := [] }
    evalMode := .trace
    contextMessages := [] }

/-- A service instance with parallel inference enabled for witnesses. -/
def wSvc : LocalService Unit :=
  { runner := wRunner
    evalSetManager := some (fun _ _ _ => .ok { evalCases := [some (wCase "case-1")] })
    sessionIDSupplier := some (fun _ => "session")
    callbacks := Callbacks.empty Unit
    runOptions := []
    evalCaseParallelism := 2
    evalCaseParallelInferenceEnabled := true
    evalCaseParallelEvaluationEnabled := false
    evalCaseInferencePoolCache := none
    newPool := fun _ => none
    attachCtxMessages := fun invs _ => invs
    clock := 0 }

/-- The effective options of `wSvc` with no per-call overrides. -/
def wOpts : Options Unit := serviceDefaultOptions wSvc

/-- A batch request for witnesses. -/
def wReq : InferenceRequest := { appName := "app", evalSetID := "set", evalCaseIDs := [] }

/-- C1: For every batch of N eval cases processed with the parallel
strategy, Inference returns a results array whose length is exactly N,
and slot i of that array holds the result produced for input case i,
regardless of the order in which worker-pool tasks complete (any
permutation of the slot indices as completion order yields the same
array). -/
theorem c1_parallel_results_ordered (svc : LocalService Ctx) (ctx : Ctx)
    (req : InferenceRequest) (evalCases : List EvalCase) (opts : Options Ctx)
    (reject : Nat → Option String) (sched : List Nat)
    (hpool : ensureEvalCaseInferencePool svc opts.evalCaseParallelism = .ok ())
    (hsched : sched.Perm (List.range evalCases.length)) :
    inferEvalCasesParallel svc ctx req evalCases opts reject sched =
      .ok (parallelFinalArray svc ctx req evalCases opts reject sched,
           parallelTrace svc ctx req evalCases opts reject sched) ∧
    (parallelFinalArray svc ctx req evalCases opts reject sched).length =
      evalCases.length ∧
    ∀ i, i < evalCases.length →
      (parallelFinalArray svc ctx req evalCases opts reject sched)[i]? =
        some (parallelSlotValue svc ctx req evalCases opts reject i) := by
  refine ⟨?_, parallelFinalArray_length _ _ _ _ _ _ _, fun i hi =>
    parallelFinalArray_getElem _ _ _ _ _ _ _ hsched i hi⟩
  unfold inferEvalCasesParallel
  rw [hpool]

/-- Witness for C1 at a concrete two-case batch with reversed completion
order. -/
theorem c1_parallel_results_ordered_witness :
    (ensureEvalCaseInferencePool wSvc wOpts.evalCaseParallelism = .ok () ∧
      List.Perm [1, 0] (List.range ([wCase "a", wCase "b"] : List EvalCase).length)) ∧
    (inferEvalCasesParallel wSvc () wReq [wCase "a", wCase "b"] wOpts (fun _ => none) [1, 0] =
      .ok (parallelFinalArray wSvc () wReq [wCase "a", wCase "b"] wOpts (fun _ => none) [1, 0],
           parallelTrace wSvc () wReq [wCase "a", wCase "b"] wOpts (fun _ => none) [1, 0]) ∧
    (parallelFinalArray wSvc () wReq [wCase "a", wCase "b"] wOpts (fun _ => none) [1, 0]).length =
      ([wCase "a", wCase "b"] : List EvalCase).length ∧
    ∀ i, i < ([wCase "a", wCase "b"] : List EvalCase).length →
      (parallelFinalArray wSvc () wReq [wCase "a", wCase "b"] wOpts (fun _ => none) [1, 0])[i]? =
        some (parallelSlotValue wSvc () wReq [wCase "a", wCase "b"] wOpts (fun _ => none) i)) :=
  ⟨⟨by rfl, by decide⟩,
    c1_parallel_results_ordered wSvc () wReq [wCase "a", wCase "b"] wOpts (fun _ => none)
      [1, 0] (by rfl) (by decide)⟩

/-- C2: Running a batch with the serial strategy and with the parallel
strategy produces identical per-case results at every index, for every
completion order, whenever the pool admits all submissions. -/
theorem c2_serial_parallel_agree (svc : LocalService Ctx) (ctx : Ctx)
    (req : InferenceRequest) (evalCases : List EvalCase) (opts : Options Ctx)
    (reject : Nat → Option String) (sched : List Nat)
    (hpool : ensureEvalCaseInferencePool svc opts.evalCaseParallelism = .ok ())
    (hsched : sched.Perm (List.range evalCases.length))
    (hreject : ∀ i, reject i = none) :
    inferEvalCasesParallel svc ctx req evalCases opts reject sched =
      .ok (parallelFinalArray svc ctx req evalCases opts reject sched,
           parallelTrace svc ctx req evalCases opts reject sched) ∧
    parallelFinalArray svc ctx req evalCases opts reject sched =
      (inferEvalCasesSerial svc ctx req evalCases opts).1 := by
  constructor
  · unfold inferEvalCasesParallel
    rw [hpool]
  · apply List.ext_getElem?
    intro i
    by_cases hi : i < evalCases.length
    · rw [parallelFinalArray_getElem _ _ _ _ _ _ _ hsched i hi]
      obtain ⟨ec, hec⟩ : ∃ ec, evalCases.get? i = some ec := by
        rw [List.get?_eq_getElem?]
        exact ⟨evalCases[i], List.getElem?_eq_getElem hi⟩
      rw [parallelSlotValue, hec, hreject i]
      rw [inferEvalCasesSerial]
      rw [List.getElem?_map, ← List.get?_eq_getElem?, hec]
      rfl
    · have h1 : (parallelFinalArray svc ctx req evalCases opts reject sched)[i]? = none := by
        apply List.getElem?_eq_none
        rw [parallelFinalArray_length]
        omega
      have h2 : ((inferEvalCasesSerial svc ctx req evalCases opts).1)[i]? = none := by
        apply List.getElem?_eq_none
        rw [inferEvalCasesSerial, List.length_map]
        omega
      rw [h1, h2]

/-- Witness for C2 at a concrete two-case batch with reversed completion
order. -/
theorem c2_serial_parallel_agree_witness :
    (ensureEvalCaseInferencePool wSvc wOpts.evalCaseParallelism = .ok () ∧
      List.Perm [1, 0] (List.range ([wCase "a", wCase "b"] : List EvalCase).length) ∧
      ∀ i : Nat, (fun _ : Nat => (none : Option String)) i = none) ∧
    (inferEvalCasesParallel wSvc () wReq [wCase "a", wCase "b"] wOpts (fun _ => none) [1, 0] =
      .ok (parallelFinalArray wSvc () wReq [wCase "a", wCase "b"] wOpts (fun _ => none) [1, 0],
           parallelTrace wSvc () wReq [wCase "a", wCase "b"] wOpts (fun _ => none) [1, 0]) ∧
    parallelFinalArray wSvc () wReq [wCase "a", wCase "b"] wOpts (fun _ => none) [1, 0] =
      (inferEvalCasesSerial wSvc () wReq [wCase "a", wCase "b"] wOpts).1) :=
  ⟨⟨by rfl, by decide, fun _ => rfl⟩,
    c2_serial_parallel_agree wSvc () wReq [wCase "a", wCase "b"] wOpts (fun _ => none)
      [1, 0] (by rfl) (by decide) (fun _ => rfl)⟩

/-- C8: option resolution fails — and no case is processed — exactly when
the effective options (service defaults with the per-call mutators applied
in order) have a nil eval-set manager, a nil session-ID supplier, or
parallel inference enabled with a worker count at most 0 or a failed
worker-pool initialization; on success the resolved effective options are
returned. -/
theorem c8_resolve_options (svc : LocalService Ctx) (opt : List (ServiceOption Ctx)) :
    ((∃ e, resolveInferenceOptions svc opt = .error e) ↔
      ((effectiveInferenceOptions svc opt).evalSetManager = none ∨
       (effectiveInferenceOptions svc opt).sessionIDSupplier = none ∨
       ((effectiveInferenceOptions svc opt).evalCaseParallelInferenceEnabled = true ∧
        ((effectiveInferenceOptions svc opt).evalCaseParallelism ≤ 0 ∨
         ∃ e, ensureEvalCaseInferencePool svc
            (effectiveInferenceOptions svc opt).evalCaseParallelism = .error e)))) ∧
    ((¬ ∃ e, resolveInferenceOptions svc opt = .error e) →
      resolveInferenceOptions svc opt = .ok (effectiveInferenceOptions svc opt)) ∧
    ((∃ e, resolveInferenceOptions svc opt = .error e) →
      ∀ (ctx : Ctx) (req? : Option InferenceRequest) (reject : Nat → Option String)
        (sched : List Nat),
        (∃ e, (Inference svc ctx req? opt reject sched).1 = .error e) ∧
        (Inference svc ctx req? opt reject sched).2 = []) := by
  have hchar : ((∃ e, resolveInferenceOptions svc opt = .error e) ↔
      ((effectiveInferenceOptions svc opt).evalSetManager = none ∨
       (effectiveInferenceOptions svc opt).sessionIDSupplier = none ∨
       ((effectiveInferenceOptions svc opt).evalCaseParallelInferenceEnabled = true ∧
        ((effectiveInferenceOptions svc opt).evalCaseParallelism ≤ 0 ∨
         ∃ e, ensureEvalCaseInferencePool svc
            (effectiveInferenceOptions svc opt).evalCaseParallelism = .error e)))) ∧
      ((¬ ∃ e, resolveInferenceOptions svc opt = .error e) →
        resolveInferenceOptions svc opt = .ok (effectiveInferenceOptions svc opt)) := by
    unfold resolveInferenceOptions
    by_cases h1 : (effectiveInferenceOptions svc opt).evalSetManager = none
    · simp [h1]
    · rw [if_neg (by simp [Option.isNone_iff_eq_none, h1])]
      by_cases h2 : (effectiveInferenceOptions svc opt).sessionIDSupplier = none
      · simp [h1, h2]
      · rw [if_neg (by simp [Option.isNone_iff_eq_none, h2])]
        by_cases h3 : (effectiveInferenceOptions svc opt).evalCaseParallelInferenceEnabled = true
        · rw [if_pos h3]
          by_cases h4 : (effectiveInferenceOptions svc opt).evalCaseParallelism ≤ 0
          · simp [h1, h2, h3, h4]
          · rw [if_neg h4]
            cases h5 : ensureEvalCaseInferencePool svc
                (effectiveInferenceOptions svc opt).evalCaseParallelism with
            | error e => simp [h1, h2, h3, h4, h5]
            | ok u => simp [h1, h2, h3, h4, h5]
        · rw [if_neg h3]
          simp [h1, h2, h3]
  refine ⟨hchar.1, hchar.2, ?_⟩
  rintro ⟨e, he⟩ ctx req? reject sched
  cases req? with
  | none => exact ⟨⟨_, rfl⟩, rfl⟩
  | some req =>
    by_cases ha : req.appName = ""
    · simp only [Inference]
      rw [if_pos ha]
      exact ⟨⟨_, rfl⟩, rfl⟩
    · by_cases hb : req.evalSetID = ""
      · simp only [Inference]
        rw [if_neg ha, if_pos hb]
        exact ⟨⟨_, rfl⟩, rfl⟩
      · simp only [Inference]
        rw [if_neg ha, if_neg hb, he]
        exact ⟨⟨_, rfl⟩, rfl⟩

/-- Witness for C8 at a concrete service whose defaults resolve
successfully. -/
theorem c8_resolve_options_witness :
    ((∃ e, resolveInferenceOptions wSvc [] = .error e) ↔
      ((effectiveInferenceOptions wSvc []).evalSetManager = none ∨
       (effectiveInferenceOptions wSvc []).sessionIDSupplier = none ∨
       ((effectiveInferenceOptions wSvc []).evalCaseParallelInferenceEnabled = true ∧
        ((effectiveInferenceOptions wSvc []).evalCaseParallelism ≤ 0 ∨
         ∃ e, ensureEvalCaseInferencePool wSvc
            (effectiveInferenceOptions wSvc []).evalCaseParallelism = .error e)))) ∧
    ((¬ ∃ e, resolveInferenceOptions wSvc [] = .error e) →
      resolveInferenceOptions wSvc [] = .ok (effectiveInferenceOptions wSvc [])) ∧
    ((∃ e, resolveInferenceOptions wSvc [] = .error e) →
      ∀ (ctx : Unit) (req? : Option InferenceRequest) (reject : Nat → Option String)
        (sched : List Nat),
        (∃ e, (Inference wSvc ctx req? [] reject sched).1 = .error e) ∧
        (Inference wSvc ctx req? [] reject sched).2 = []) :=
  c8_resolve_options wSvc []

/-- The before-case wrapper reports no error exactly when the underlying
chain reports none. -/
lemma runBeforeInferenceCaseCallbacks_none (ctx : Ctx) (cb : Callbacks Ctx)
    (req : InferenceRequest) (evalCaseID sessionID : String)
    (h : (cb.runBeforeInferenceCase ctx
      { request := req, evalCaseID := evalCaseID, sessionID := sessionID }).2 = none) :
    (runBeforeInferenceCaseCallbacks ctx cb req evalCaseID sessionID).1.2 = none := by
  unfold runBeforeInferenceCaseCallbacks
  simp [h]

/-- The after-case wrapper is a no-op plus its event when no hook errors. -/
lemma runAfterInferenceCaseCallbacks_noop (ctx : Ctx) (cb : Callbacks Ctx)
    (req : InferenceRequest) (evalCaseID : String) (result : InferenceResult)
    (err : Option String) (startTime : Nat)
    (hafter : ∀ c a, cb.runAfterInferenceCase c a = none) :
    runAfterInferenceCaseCallbacks ctx cb req evalCaseID result err startTime =
      (none, [.afterCaseCall
        { request := req, result := result, error := err, startTime := startTime }]) := by
  simp only [runAfterInferenceCaseCallbacks, hafter]

/-- C10: for every eval case whose evaluation mode is not trace but whose
recorded actual conversation is non-empty (and which enters the per-case
pipeline: session input present, before-case callbacks succeed, no
after-case override), the pipeline marks the case failed with the message
ending in `actualConversation is only supported in trace mode`, clears its
inferences, and never calls the agent runner. -/
theorem c10_actual_conversation_needs_trace (svc : LocalService Ctx) (ctx : Ctx)
    (req : InferenceRequest) (ec : EvalCase) (opts : Options Ctx) (si : SessionInput)
    (hsi : ec.sessionInput = some si)
    (hmode : ec.evalMode ≠ .trace)
    (hactual : ec.actualConversation ≠ [])
    (hbefore : (opts.callbacks.runBeforeInferenceCase ctx
      { request := req, evalCaseID := ec.evalID, sessionID := sessionIDOf opts ctx }).2 = none)
    (hafter : ∀ c a, opts.callbacks.runAfterInferenceCase c a = none) :
    (inferenceEvalCase svc ctx req (some ec) opts).1 =
      newFailedInferenceResult
        (newInferenceResult req.appName req.evalSetID (sessionIDOf opts ctx) ec)
        (caseMsgPrefix ec.evalID (sessionIDOf opts ctx) ++
          "actualConversation is only supported in trace mode") ∧
    (inferenceEvalCase svc ctx req (some ec) opts).1.status = .failed ∧
    (inferenceEvalCase svc ctx req (some ec) opts).1.inferences = none ∧
    (inferenceEvalCase svc ctx req (some ec) opts).2.countP isRunnerEvent = 0 := by
  have hlen : ec.actualConversation.length ≠ 0 := by
    intro h
    exact hactual (List.length_eq_zero.mp h)
  have hb2 := runBeforeInferenceCaseCallbacks_none ctx opts.callbacks req ec.evalID
    (sessionIDOf opts ctx) hbefore
  have hcore : ∀ c : Ctx, inferenceEvalCaseCore svc c req ec opts (sessionIDOf opts ctx) =
      ((newFailedInferenceResult
          (newInferenceResult req.appName req.evalSetID (sessionIDOf opts ctx) ec)
          (caseMsgPrefix ec.evalID (sessionIDOf opts ctx) ++
            "actualConversation is only supported in trace mode"),
        some (caseMsgPrefix ec.evalID (sessionIDOf opts ctx) ++
            "actualConversation is only supported in trace mode")), []) := by
    intro c
    simp only [inferenceEvalCaseCore, hsi]
    rw [if_pos ⟨hlen, hmode⟩]
  have hmain : inferenceEvalCase svc ctx req (some ec) opts =
      (newFailedInferenceResult
        (newInferenceResult req.appName req.evalSetID (sessionIDOf opts ctx) ec)
        (caseMsgPrefix ec.evalID (sessionIDOf opts ctx) ++
          "actualConversation is only supported in trace mode"),
       [CaseEvent.beforeCaseCall ec.evalID (sessionIDOf opts ctx),
        CaseEvent.afterCaseCall
          { request := req
            result := newFailedInferenceResult
              (newInferenceResult req.appName req.evalSetID (sessionIDOf opts ctx) ec)
              (caseMsgPrefix ec.evalID (sessionIDOf opts ctx) ++
                "actualConversation is only supported in trace mode")
            error := some (caseMsgPrefix ec.evalID (sessionIDOf opts ctx) ++
              "actualConversation is only supported in trace mode")
            startTime := svc.clock }]) := by
    simp only [inferenceEvalCase, hb2, hcore,
      runAfterInferenceCaseCallbacks_noop _ _ _ _ _ _ _ hafter]
    rfl
  rw [hmain]
  exact ⟨rfl, rfl, rfl, rfl⟩

/-- A default-mode case carrying a recorded actual conversation. -/
def wCaseBadActual : EvalCase :=
  { evalID := "bad-actual"
    conversation := [some wInvocation]
    actualConversation := [some wInvocation]
    sessionInput := some { userID := "user", state := [] }
    evalMode := .defaultMode
    contextMessages := [] }

/-- Witness for C10 at a concrete default-mode case with a recorded actual
conversation. -/
theorem c10_actual_conversation_needs_trace_witness :
    (wCaseBadActual.sessionInput = some { userID := "user", state := [] } ∧
     wCaseBadActual.evalMode ≠ .trace ∧
     wCaseBadActual.actualConversation ≠ [] ∧
     (wOpts.callbacks.runBeforeInferenceCase ()
        { request := wReq
          evalCaseID := wCaseBadActual.evalID
          sessionID := sessionIDOf wOpts () }).2 = none ∧
     (∀ c a, wOpts.callbacks.runAfterInferenceCase c a = none)) ∧
    ((inferenceEvalCase wSvc () wReq (some wCaseBadActual) wOpts).1 =
      newFailedInferenceResult
        (newInferenceResult wReq.appName wReq.evalSetID (sessionIDOf wOpts ()) wCaseBadActual)
        (caseMsgPrefix wCaseBadActual.evalID (sessionIDOf wOpts ()) ++
          "actualConversation is only supported in trace mode") ∧
    (inferenceEvalCase wSvc () wReq (some wCaseBadActual) wOpts).1.status = .failed ∧
    (inferenceEvalCase wSvc () wReq (some wCaseBadActual) wOpts).1.inferences = none ∧
    (inferenceEvalCase wSvc () wReq (some wCaseBadActual) wOpts).2.countP isRunnerEvent = 0) :=
  ⟨⟨rfl, by decide, by decide, rfl, fun _ _ => rfl⟩,
   c10_actual_conversation_needs_trace wSvc () wReq wCaseBadActual wOpts
     { userID := "user", state := [] } rfl (by decide) (by decide) rfl (fun _ _ => rfl)⟩

/-- When neither the before-case nor the after-case callbacks err, the
pipeline returns the core's result and the trace brackets the core's
events with the two callback invocations. -/
lemma inferenceEvalCase_no_callback_err (svc : LocalService Ctx) (ctx : Ctx)
    (req : InferenceRequest) (ec : EvalCase) (opts : Options Ctx)
    (hbefore : (opts.callbacks.runBeforeInferenceCase ctx
      { request := req, evalCaseID := ec.evalID, sessionID := sessionIDOf opts ctx }).2 = none)
    (hafter : ∀ c a, opts.callbacks.runAfterInferenceCase c a = none) :
    inferenceEvalCase svc ctx req (some ec) opts =
      ((inferenceEvalCaseCore svc
          (runBeforeInferenceCaseCallbacks ctx opts.callbacks req ec.evalID
            (sessionIDOf opts ctx)).1.1 req ec opts (sessionIDOf opts ctx)).1.1,
       [CaseEvent.beforeCaseCall ec.evalID (sessionIDOf opts ctx)] ++
       (inferenceEvalCaseCore svc
          (runBeforeInferenceCaseCallbacks ctx opts.callbacks req ec.evalID
            (sessionIDOf opts ctx)).1.1 req ec opts (sessionIDOf opts ctx)).2 ++
       [CaseEvent.afterCaseCall
          { request := req
            result := (inferenceEvalCaseCore svc
              (runBeforeInferenceCaseCallbacks ctx opts.callbacks req ec.evalID
                (sessionIDOf opts ctx)).1.1 req ec opts (sessionIDOf opts ctx)).1.1
            error := (inferenceEvalCaseCore svc
              (runBeforeInferenceCaseCallbacks ctx opts.callbacks req ec.evalID
                (sessionIDOf opts ctx)).1.1 req ec opts (sessionIDOf opts ctx)).1.2
            startTime := svc.clock }]) := by
  have hb2 := runBeforeInferenceCaseCallbacks_none ctx opts.callbacks req ec.evalID
    (sessionIDOf opts ctx) hbefore
  simp only [inferenceEvalCase, hb2,
    runAfterInferenceCaseCallbacks_noop _ _ _ _ _ _ _ hafter]
  rfl

/-- C6: for every trace-mode eval case with a non-empty recorded actual
conversation (entering the pipeline with a session input and non-erring
callbacks): the case fails when some actual turn is nil or has nil user
content; it fails when the expected conversation is non-empty and its
length differs from the actual conversation's; otherwise the result's
inferences are exactly the recorded actual conversation, the case is
marked passed, and the agent runner is never called. -/
theorem c6_trace_mode_actual_passthrough (svc : LocalService Ctx) (ctx : Ctx)
    (req : InferenceRequest) (ec : EvalCase) (opts : Options Ctx) (si : SessionInput)
    (hsi : ec.sessionInput = some si)
    (htrace : ec.evalMode = .trace)
    (hactual : ec.actualConversation ≠ [])
    (hbefore : (opts.callbacks.runBeforeInferenceCase ctx
      { request := req, evalCaseID := ec.evalID, sessionID := sessionIDOf opts ctx }).2 = none)
    (hafter : ∀ c a, opts.callbacks.runAfterInferenceCase c a = none) :
    (∀ i b, firstInvalidActual ec.actualConversation 0 = some (i, b) →
      (inferenceEvalCase svc ctx req (some ec) opts).1.status = .failed) ∧
    (ec.conversation ≠ [] → ec.actualConversation.length ≠ ec.conversation.length →
      (inferenceEvalCase svc ctx req (some ec) opts).1.status = .failed) ∧
    (firstInvalidActual ec.actualConversation 0 = none →
      (ec.conversation = [] ∨ ec.actualConversation.length = ec.conversation.length) →
      (inferenceEvalCase svc ctx req (some ec) opts).1 =
        { newInferenceResult req.appName req.evalSetID (sessionIDOf opts ctx) ec with
            inferences := some ec.actualConversation
            status := .passed } ∧
      (inferenceEvalCase svc ctx req (some ec) opts).2.countP isRunnerEvent = 0) := by
  have hlen : ec.actualConversation.length ≠ 0 := by
    intro h
    exact hactual (List.length_eq_zero.mp h)
  have hred := inferenceEvalCase_no_callback_err svc ctx req ec opts hbefore hafter
  have hmode : ¬ (ec.actualConversation.length ≠ 0 ∧ ec.evalMode ≠ EvalMode.trace) :=
    fun h => h.2 htrace
  refine ⟨?_, ?_, ?_⟩
  · intro i b hinv
    rw [hred]
    by_cases hlm : ec.conversation.length ≠ 0 ∧
        ec.actualConversation.length ≠ ec.conversation.length
    · simp only [inferenceEvalCaseCore, hsi]
      rw [if_neg hmode, if_pos htrace, if_pos hlen, if_pos hlm]
      rfl
    · simp only [inferenceEvalCaseCore, hsi]
      rw [if_neg hmode, if_pos htrace, if_pos hlen, if_neg hlm, hinv]
      cases b <;> rfl
  · intro hconv hlens
    rw [hred]
    have hconvlen : ec.conversation.length ≠ 0 := by
      intro h
      exact hconv (List.length_eq_zero.mp h)
    simp only [inferenceEvalCaseCore, hsi]
    rw [if_neg hmode, if_pos htrace, if_pos hlen, if_pos ⟨hconvlen, hlens⟩]
    rfl
  · intro hinv hok
    have hlm : ¬ (ec.conversation.length ≠ 0 ∧
        ec.actualConversation.length ≠ ec.conversation.length) := by
      rcases hok with h | h
      · intro hc
        exact hc.1 (by rw [h]; rfl)
      · intro hc
        exact hc.2 h
    have hcore : inferenceEvalCaseCore svc
        (runBeforeInferenceCaseCallbacks ctx opts.callbacks req ec.evalID
          (sessionIDOf opts ctx)).1.1 req ec opts (sessionIDOf opts ctx) =
        (({ newInferenceResult req.appName req.evalSetID (sessionIDOf opts ctx) ec with
            inferences := some ec.actualConversation
            status := .passed }, none), []) := by
      simp only [inferenceEvalCaseCore, hsi]
      rw [if_neg hmode, if_pos htrace, if_pos hlen, if_neg hlm, hinv]
    rw [hred, hcore]
    exact ⟨rfl, rfl⟩

/-- A trace-mode case carrying a valid recorded actual conversation of the
same length as its expected conversation. -/
def wCaseTraceActual : EvalCase :=
  { evalID := "trace-actual"
    conversation := [some wInvocation]
    actualConversation := [some wInvocation]
    sessionInput := some { userID := "user", state := [] }
    evalMode := .trace
    contextMessages := [] }

/-- Witness for C6 at a concrete trace-mode case whose recorded actual
conversation passes through. -/
theorem c6_trace_mode_actual_passthrough_witness :
    (wCaseTraceActual.sessionInput = some { userID := "user", state := [] } ∧
     wCaseTraceActual.evalMode = .trace ∧
     wCaseTraceActual.actualConversation ≠ [] ∧
     (wOpts.callbacks.runBeforeInferenceCase ()
        { request := wReq
          evalCaseID := wCaseTraceActual.evalID
          sessionID := sessionIDOf wOpts () }).2 = none ∧
     (∀ c a, wOpts.callbacks.runAfterInferenceCase c a = none)) ∧
    ((∀ i b, firstInvalidActual wCaseTraceActual.actualConversation 0 = some (i, b) →
      (inferenceEvalCase wSvc () wReq (some wCaseTraceActual) wOpts).1.status = .failed) ∧
    (wCaseTraceActual.conversation ≠ [] →
      wCaseTraceActual.actualConversation.length ≠ wCaseTraceActual.conversation.length →
      (inferenceEvalCase wSvc () wReq (some wCaseTraceActual) wOpts).1.status = .failed) ∧
    (firstInvalidActual wCaseTraceActual.actualConversation 0 = none →
      (wCaseTraceActual.conversation = [] ∨
        wCaseTraceActual.actualConversation.length = wCaseTraceActual.conversation.length) →
      (inferenceEvalCase wSvc () wReq (some wCaseTraceActual) wOpts).1 =
        { newInferenceResult wReq.appName wReq.evalSetID (sessionIDOf wOpts ())
            wCaseTraceActual with
            inferences := some wCaseTraceActual.actualConversation
            status := .passed } ∧
      (inferenceEvalCase wSvc () wReq (some wCaseTraceActual) wOpts).2.countP
        isRunnerEvent = 0)) :=
  ⟨⟨rfl, rfl, by decide, rfl, fun _ _ => rfl⟩,
   c6_trace_mode_actual_passthrough wSvc () wReq wCaseTraceActual wOpts
     { userID := "user", state := [] } rfl rfl (by decide) rfl (fun _ _ => rfl)⟩

/-- The after-case wrapper wraps a constant hook error with the case
identifiers. -/
lemma runAfterInferenceCaseCallbacks_err (ctx : Ctx) (cb : Callbacks Ctx)
    (req : InferenceRequest) (evalCaseID : String) (result : InferenceResult)
    (err : Option String) (startTime : Nat) (e : String)
    (hafter : ∀ c a, cb.runAfterInferenceCase c a = some e) :
    runAfterInferenceCaseCallbacks ctx cb req evalCaseID result err startTime =
      (some ("run after inference case callbacks (app=" ++ req.appName ++
        ", evalSetID=" ++ req.evalSetID ++ ", evalCaseID=" ++ evalCaseID ++ "): " ++ e),
       [.afterCaseCall
        { request := req, result := result, error := err, startTime := startTime }]) := by
  simp only [runAfterInferenceCaseCallbacks, hafter]

/-- C7: if the after-case callbacks return an error for a case, that
case's final result is overwritten to failed status with a message that
joins the original processing error (if any) with the wrapped callback
error, its inferences are cleared to nil — and a case whose processing
succeeded (no processing error) ends with exactly the wrapped callback
error as its message. -/
theorem c7_after_case_error_overwrites (svc : LocalService Ctx) (ctx : Ctx)
    (req : InferenceRequest) (ec : EvalCase) (opts : Options Ctx) (e : String)
    (hbefore : (opts.callbacks.runBeforeInferenceCase ctx
      { request := req, evalCaseID := ec.evalID, sessionID := sessionIDOf opts ctx }).2 = none)
    (hafter : ∀ c a, opts.callbacks.runAfterInferenceCase c a = some e) :
    (inferenceEvalCase svc ctx req (some ec) opts).1 =
      newFailedInferenceResult
        (inferenceEvalCaseCore svc
          (runBeforeInferenceCaseCallbacks ctx opts.callbacks req ec.evalID
            (sessionIDOf opts ctx)).1.1 req ec opts (sessionIDOf opts ctx)).1.1
        (joinErrMessages
          (inferenceEvalCaseCore svc
            (runBeforeInferenceCaseCallbacks ctx opts.callbacks req ec.evalID
              (sessionIDOf opts ctx)).1.1 req ec opts (sessionIDOf opts ctx)).1.2
          ("run after inference case callbacks (app=" ++ req.appName ++
            ", evalSetID=" ++ req.evalSetID ++ ", evalCaseID=" ++ ec.evalID ++ "): " ++ e)) ∧
    (inferenceEvalCase svc ctx req (some ec) opts).1.status = .failed ∧
    (inferenceEvalCase svc ctx req (some ec) opts).1.inferences = none ∧
    ((inferenceEvalCaseCore svc
        (runBeforeInferenceCaseCallbacks ctx opts.callbacks req ec.evalID
          (sessionIDOf opts ctx)).1.1 req ec opts (sessionIDOf opts ctx)).1.2 = none →
      (inferenceEvalCase svc ctx req (some ec) opts).1.errorMessage =
        "run after inference case callbacks (app=" ++ req.appName ++
          ", evalSetID=" ++ req.evalSetID ++ ", evalCaseID=" ++ ec.evalID ++ "): " ++ e) := by
  have hb2 := runBeforeInferenceCaseCallbacks_none ctx opts.callbacks req ec.evalID
    (sessionIDOf opts ctx) hbefore
  have hmain : inferenceEvalCase svc ctx req (some ec) opts =
      (newFailedInferenceResult
        (inferenceEvalCaseCore svc
          (runBeforeInferenceCaseCallbacks ctx opts.callbacks req ec.evalID
            (sessionIDOf opts ctx)).1.1 req ec opts (sessionIDOf opts ctx)).1.1
        (joinErrMessages
          (inferenceEvalCaseCore svc
            (runBeforeInferenceCaseCallbacks ctx opts.callbacks req ec.evalID
              (sessionIDOf opts ctx)).1.1 req ec opts (sessionIDOf opts ctx)).1.2
          ("run after inference case callbacks (app=" ++ req.appName ++
            ", evalSetID=" ++ req.evalSetID ++ ", evalCaseID=" ++ ec.evalID ++ "): " ++ e)),
       [CaseEvent.beforeCaseCall ec.evalID (sessionIDOf opts ctx)] ++
       (inferenceEvalCaseCore svc
          (runBeforeInferenceCaseCallbacks ctx opts.callbacks req ec.evalID
            (sessionIDOf opts ctx)).1.1 req ec opts (sessionIDOf opts ctx)).2 ++
       [CaseEvent.afterCaseCall
          { request := req
            result := (inferenceEvalCaseCore svc
              (runBeforeInferenceCaseCallbacks ctx opts.callbacks req ec.evalID
                (sessionIDOf opts ctx)).1.1 req ec opts (sessionIDOf opts ctx)).1.1
            error := (inferenceEvalCaseCore svc
              (runBeforeInferenceCaseCallbacks ctx opts.callbacks req ec.evalID
                (sessionIDOf opts ctx)).1.1 req ec opts (sessionIDOf opts ctx)).1.2
            startTime := svc.clock }]) := by
    simp only [inferenceEvalCase, hb2,
      runAfterInferenceCaseCallbacks_err _ _ _ _ _ _ _ _ hafter]
    rfl
  rw [hmain]
  refine ⟨rfl, rfl, rfl, fun hcore => ?_⟩
  simp only [hcore, newFailedInferenceResult, joinErrMessages]

/-- A callback set whose after-case hook always fails. -/
def wFailAfterCallbacks : Callbacks Unit :=
  { Callbacks.empty Unit with
      runAfterInferenceCase := fun _ _ => some "after inference case failed" }

/-- Options carrying the failing after-case hook. -/
def wOptsFailAfter : Options Unit :=
  { serviceDefaultOptions wSvc with callbacks := wFailAfterCallbacks }

/-- Witness for C7 at a concrete trace-mode case that would otherwise have
passed. -/
theorem c7_after_case_error_overwrites_witness :
    ((wOptsFailAfter.callbacks.runBeforeInferenceCase ()
        { request := wReq
          evalCaseID := (wCase "a").evalID
          sessionID := sessionIDOf wOptsFailAfter () }).2 = none ∧
     (∀ c a, wOptsFailAfter.callbacks.runAfterInferenceCase c a =
        some "after inference case failed")) ∧
    ((inferenceEvalCase wSvc () wReq (some (wCase "a")) wOptsFailAfter).1 =
      newFailedInferenceResult
        (inferenceEvalCaseCore wSvc
          (runBeforeInferenceCaseCallbacks () wOptsFailAfter.callbacks wReq (wCase "a").evalID
            (sessionIDOf wOptsFailAfter ())).1.1 wReq (wCase "a") wOptsFailAfter
          (sessionIDOf wOptsFailAfter ())).1.1
        (joinErrMessages
          (inferenceEvalCaseCore wSvc
            (runBeforeInferenceCaseCallbacks () wOptsFailAfter.callbacks wReq (wCase "a").evalID
              (sessionIDOf wOptsFailAfter ())).1.1 wReq (wCase "a") wOptsFailAfter
            (sessionIDOf wOptsFailAfter ())).1.2
          ("run after inference case callbacks (app=" ++ wReq.appName ++
            ", evalSetID=" ++ wReq.evalSetID ++ ", evalCaseID=" ++ (wCase "a").evalID ++
            "): " ++ "after inference case failed")) ∧
    (inferenceEvalCase wSvc () wReq (some (wCase "a")) wOptsFailAfter).1.status = .failed ∧
    (inferenceEvalCase wSvc () wReq (some (wCase "a")) wOptsFailAfter).1.inferences = none ∧
    ((inferenceEvalCaseCore wSvc
        (runBeforeInferenceCaseCallbacks () wOptsFailAfter.callbacks wReq (wCase "a").evalID
          (sessionIDOf wOptsFailAfter ())).1.1 wReq (wCase "a") wOptsFailAfter
        (sessionIDOf wOptsFailAfter ())).1.2 = none →
      (inferenceEvalCase wSvc () wReq (some (wCase "a")) wOptsFailAfter).1.errorMessage =
        "run after inference case callbacks (app=" ++ wReq.appName ++
          ", evalSetID=" ++ wReq.evalSetID ++ ", evalCaseID=" ++ (wCase "a").evalID ++
          "): " ++ "after inference case failed")) :=
  ⟨⟨rfl, fun _ _ => rfl⟩,
   c7_after_case_error_overwrites wSvc () wReq (wCase "a") wOptsFailAfter
     "after inference case failed" rfl (fun _ _ => rfl)⟩

/-- C9: for every live-mode eval case reaching the runner call, the
invocation runner is invoked exactly once, with effective run options
obtained from the global (service-level) run options followed by the
case's own seed-message injection appended after them; consequently the
injected context messages the runner sees are the globally injected
messages first, with the case's context messages appended after them —
added, not replacing. -/
theorem c9_injected_messages_order (svc : LocalService Ctx) (ctx : Ctx)
    (req : InferenceRequest) (ec : EvalCase) (opts : Options Ctx) (si : SessionInput)
    (seed : List Message)
    (hsi : ec.sessionInput = some si)
    (hlive : ec.evalMode ≠ .trace)
    (hnoactual : ec.actualConversation = [])
    (hconv : ec.conversation ≠ [])
    (hseed : seedMessagesFromPointers ec.contextMessages = .ok seed)
    (hbefore : (opts.callbacks.runBeforeInferenceCase ctx
      { request := req, evalCaseID := ec.evalID, sessionID := sessionIDOf opts ctx }).2 = none)
    (hafter : ∀ c a, opts.callbacks.runAfterInferenceCase c a = none) :
    (inferenceEvalCase svc ctx req (some ec) opts).2.filter isRunnerEvent =
      [CaseEvent.runnerInference (sessionIDOf opts ctx)
        (applyRunOptions (opts.runOptions ++
          (if seed.length > 0 then [withInjectedContextMessages seed] else []))
          RunOptions.empty)] ∧
    (∀ ro : RunOptions,
      (applyRunOptions (opts.runOptions ++
        (if seed.length > 0 then [withInjectedContextMessages seed] else []))
        ro).injectedContextMessages =
      (applyRunOptions opts.runOptions ro).injectedContextMessages ++ seed) := by
  have hactlen : ¬ (ec.actualConversation.length ≠ 0 ∧ ec.evalMode ≠ EvalMode.trace) := by
    intro h
    exact h.1 (by rw [hnoactual]; rfl)
  have hconvlen : ¬ ec.conversation.length = 0 := by
    intro h
    exact hconv (List.length_eq_zero.mp h)
  have hcore2 : ∀ c : Ctx, (inferenceEvalCaseCore svc c req ec opts (sessionIDOf opts ctx)).2 =
      [CaseEvent.runnerInference (sessionIDOf opts ctx)
        (applyRunOptions (opts.runOptions ++
          (if seed.length > 0 then [withInjectedContextMessages seed] else []))
          RunOptions.empty)] := by
    intro c
    simp only [inferenceEvalCaseCore, hsi]
    rw [if_neg hactlen, if_neg hlive, if_neg hconvlen]
    simp only [hseed]
    cases hr : svc.runner c ec.conversation si (sessionIDOf opts ctx)
        (applyRunOptions (opts.runOptions ++
          (if seed.length > 0 then [withInjectedContextMessages seed] else []))
          RunOptions.empty) with
    | error e => rfl
    | ok invs => rfl
  have hred := inferenceEvalCase_no_callback_err svc ctx req ec opts hbefore hafter
  constructor
  · rw [hred]
    rw [List.filter_append, List.filter_append, hcore2]
    rfl
  · intro ro
    by_cases hs : seed.length > 0
    · rw [if_pos hs]
      rw [applyRunOptions, List.foldl_append]
      rfl
    · have hseede : seed = [] := by
        cases seed with
        | nil => rfl
        | cons a l => exact absurd (by simp) hs
      rw [if_neg hs, hseede]
      simp

/-- A globally injected message for the C9 witness. -/
def wMsgGlobal : Message := { role := "system", content := "global injected" }

/-- The case-level context messages for the C9 witness. -/
def wMsgCase1 : Message := { role := "system", content := "case system" }

/-- Second case-level context message for the C9 witness. -/
def wMsgCase2 : Message := { role := "user", content := "case user" }

/-- A live-mode case with two context messages. -/
def wCaseLive : EvalCase :=
  { evalID := "live-1"
    conversation := [some wInvocation]
    actualConversation := []
    sessionInput := some { userID := "user", state := [] }
    evalMode := .defaultMode
    contextMessages := [some wMsgCase1, some wMsgCase2] }

/-- Options with one global injected-context run option. -/
def wOptsLive : Options Unit :=
  { serviceDefaultOptions wSvc with
      runOptions := [withInjectedContextMessages [wMsgGlobal]] }

/-- Witness for C9 at a concrete live case with a global injection and two
case messages. -/
theorem c9_injected_messages_order_witness :
    (wCaseLive.sessionInput = some { userID := "user", state := [] } ∧
     wCaseLive.evalMode ≠ .trace ∧
     wCaseLive.actualConversation = [] ∧
     wCaseLive.conversation ≠ [] ∧
     seedMessagesFromPointers wCaseLive.contextMessages = .ok [wMsgCase1, wMsgCase2] ∧
     (wOptsLive.callbacks.runBeforeInferenceCase ()
        { request := wReq
          evalCaseID := wCaseLive.evalID
          sessionID := sessionIDOf wOptsLive () }).2 = none ∧
     (∀ c a, wOptsLive.callbacks.runAfterInferenceCase c a = none)) ∧
    ((inferenceEvalCase wSvc () wReq (some wCaseLive) wOptsLive).2.filter isRunnerEvent =
      [CaseEvent.runnerInference (sessionIDOf wOptsLive ())
        (applyRunOptions (wOptsLive.runOptions ++
          (if ([wMsgCase1, wMsgCase2] : List Message).length > 0 then
            [withInjectedContextMessages [wMsgCase1, wMsgCase2]] else []))
          RunOptions.empty)] ∧
    (∀ ro : RunOptions,
      (applyRunOptions (wOptsLive.runOptions ++
        (if ([wMsgCase1, wMsgCase2] : List Message).length > 0 then
          [withInjectedContextMessages [wMsgCase1, wMsgCase2]] else []))
        ro).injectedContextMessages =
      (applyRunOptions wOptsLive.runOptions ro).injectedContextMessages ++
        [wMsgCase1, wMsgCase2])) :=
  ⟨⟨rfl, by decide, rfl, by decide, by rfl, rfl, fun _ _ => rfl⟩,
   c9_injected_messages_order wSvc () wReq wCaseLive wOptsLive
     { userID := "user", state := [] } [wMsgCase1, wMsgCase2]
     rfl (by decide) rfl (by decide) (by rfl) rfl (fun _ _ => rfl)⟩

/-- The core emits no after-case callback event: its only possible event
is the invocation-runner call. -/
lemma inferenceEvalCaseCore_no_afterCase (svc : LocalService Ctx) (c : Ctx)
    (req : InferenceRequest) (ec : EvalCase) (opts : Options Ctx) (sid : String) :
    (inferenceEvalCaseCore svc c req ec opts sid).2.filter isAfterCaseEvent = [] := by
  simp only [inferenceEvalCaseCore]
  repeat' split
  all_goals rfl

/-- A callback set whose before-case hook always fails. -/
def wFailBeforeCallbacks : Callbacks Unit :=
  { Callbacks.empty Unit with
      runBeforeInferenceCase := fun _ _ => (none, some "before inference case failed") }

/-- Options carrying the failing before-case hook. -/
def wOptsFailBefore : Options Unit :=
  { serviceDefaultOptions wSvc with callbacks := wFailBeforeCallbacks }

/-- Counterexample to C4: a case whose before-case callback errors enters
the pipeline and is marked failed, yet its trace holds no after-case
callback invocation at all — the after-case hook is installed only after
the before-case phase succeeded, so it does not run for this case. -/
theorem c4_counterexample :
    (inferenceEvalCase wSvc () wReq (some (wCase "a")) wOptsFailBefore).1.status = .failed ∧
    (inferenceEvalCase wSvc () wReq (some (wCase "a")) wOptsFailBefore).1.errorMessage =
      "run before inference case callbacks (app=app, evalSetID=set, evalCaseID=a, sessionID=session): before inference case failed" ∧
    (inferenceEvalCase wSvc () wReq (some (wCase "a")) wOptsFailBefore).2.countP
      isAfterCaseEvent = 0 :=
  ⟨rfl, rfl, rfl⟩

/-- C4 (amended): the after-case callbacks run exactly once for every
non-nil case whose before-case callbacks succeed — including cases that
fail later in the pipeline — receiving the case's result, any processing
error, and the case's start time; for a case whose before-case callback
returns an error, the after-case callbacks do not run at all. -/
theorem c4_after_case_exactly_once (svc : LocalService Ctx) (ctx : Ctx)
    (req : InferenceRequest) (ec : EvalCase) (opts : Options Ctx) :
    ((opts.callbacks.runBeforeInferenceCase ctx
        { request := req, evalCaseID := ec.evalID, sessionID := sessionIDOf opts ctx }).2 =
          none →
      (inferenceEvalCase svc ctx req (some ec) opts).2.filter isAfterCaseEvent =
        [CaseEvent.afterCaseCall
          { request := req
            result := (inferenceEvalCaseCore svc
              (runBeforeInferenceCaseCallbacks ctx opts.callbacks req ec.evalID
                (sessionIDOf opts ctx)).1.1 req ec opts (sessionIDOf opts ctx)).1.1
            error := (inferenceEvalCaseCore svc
              (runBeforeInferenceCaseCallbacks ctx opts.callbacks req ec.evalID
                (sessionIDOf opts ctx)).1.1 req ec opts (sessionIDOf opts ctx)).1.2
            startTime := svc.clock }]) ∧
    (∀ e, (opts.callbacks.runBeforeInferenceCase ctx
        { request := req, evalCaseID := ec.evalID, sessionID := sessionIDOf opts ctx }).2 =
          some e →
      (inferenceEvalCase svc ctx req (some ec) opts).2.filter isAfterCaseEvent = []) := by
  constructor
  · intro hbefore
    have hb2 := runBeforeInferenceCaseCallbacks_none ctx opts.callbacks req ec.evalID
      (sessionIDOf opts ctx) hbefore
    have htr : (inferenceEvalCase svc ctx req (some ec) opts).2 =
        [CaseEvent.beforeCaseCall ec.evalID (sessionIDOf opts ctx)] ++
        (inferenceEvalCaseCore svc
          (runBeforeInferenceCaseCallbacks ctx opts.callbacks req ec.evalID
            (sessionIDOf opts ctx)).1.1 req ec opts (sessionIDOf opts ctx)).2 ++
        [CaseEvent.afterCaseCall
          { request := req
            result := (inferenceEvalCaseCore svc
              (runBeforeInferenceCaseCallbacks ctx opts.callbacks req ec.evalID
                (sessionIDOf opts ctx)).1.1 req ec opts (sessionIDOf opts ctx)).1.1
            error := (inferenceEvalCaseCore svc
              (runBeforeInferenceCaseCallbacks ctx opts.callbacks req ec.evalID
                (sessionIDOf opts ctx)).1.1 req ec opts (sessionIDOf opts ctx)).1.2
            startTime := svc.clock }] := by
      simp only [inferenceEvalCase, hb2]
      rfl
    rw [htr, List.filter_append, List.filter_append,
      inferenceEvalCaseCore_no_afterCase]
    rfl
  · intro e hbefore
    have hb2 : (runBeforeInferenceCaseCallbacks ctx opts.callbacks req ec.evalID
        (sessionIDOf opts ctx)).1.2 =
        some ("run before inference case callbacks (app=" ++ req.appName ++
          ", evalSetID=" ++ req.evalSetID ++ ", evalCaseID=" ++ ec.evalID ++
          ", sessionID=" ++ sessionIDOf opts ctx ++ "): " ++ e) := by
      unfold runBeforeInferenceCaseCallbacks
      simp [hbefore]
    simp only [inferenceEvalCase, hb2]
    rfl

/-- Witness for C4 (amended) at a concrete case with empty callbacks. -/
theorem c4_after_case_exactly_once_witness :
    ((wOpts.callbacks.runBeforeInferenceCase ()
        { request := wReq
          evalCaseID := (wCase "a").evalID
          sessionID := sessionIDOf wOpts () }).2 = none) ∧
    (inferenceEvalCase wSvc () wReq (some (wCase "a")) wOpts).2.filter isAfterCaseEvent =
      [CaseEvent.afterCaseCall
        { request := wReq
          result := (inferenceEvalCaseCore wSvc
            (runBeforeInferenceCaseCallbacks () wOpts.callbacks wReq (wCase "a").evalID
              (sessionIDOf wOpts ())).1.1 wReq (wCase "a") wOpts (sessionIDOf wOpts ())).1.1
          error := (inferenceEvalCaseCore wSvc
            (runBeforeInferenceCaseCallbacks () wOpts.callbacks wReq (wCase "a").evalID
              (sessionIDOf wOpts ())).1.1 wReq (wCase "a") wOpts (sessionIDOf wOpts ())).1.2
          startTime := wSvc.clock }] :=
  ⟨rfl, (c4_after_case_exactly_once wSvc () wReq (wCase "a") wOpts).1 rfl⟩

lemma submitEventsAt_barrier_count_ne (ctx : Ctx) (req : InferenceRequest)
    (evalCases : List EvalCase) (reject : Nat → Option String) (i j : Nat) (hj : j ≠ i) :
    (submitEventsAt ctx req evalCases reject j).countP (isBarrierSignalAt i) = 0 := by
  cases h1 : reject j with
  | none => simp [submitEventsAt, h1]
  | some e =>
    cases h2 : evalCases[j]? with
    | none => simp [submitEventsAt, h1, h2]
    | some ec =>
      simp [submitEventsAt, h1, h2, isBarrierSignalAt, List.countP_cons, Ne.symm hj]

lemma workerEventsAt_barrier_count_ne (svc : LocalService Ctx) (ctx : Ctx)
    (req : InferenceRequest) (evalCases : List EvalCase) (opts : Options Ctx)
    (reject : Nat → Option String) (i j : Nat) (hj : j ≠ i) :
    (workerEventsAt svc ctx req evalCases opts reject j).countP (isBarrierSignalAt i) = 0 := by
  cases h1 : reject j with
  | some e => simp [workerEventsAt, h1]
  | none =>
    cases h2 : evalCases[j]? with
    | none => simp [workerEventsAt, h1, h2]
    | some ec =>
      simp [workerEventsAt, h1, h2, isBarrierSignalAt, List.countP_cons, Ne.symm hj]

/-- C5: when submitting case i's task parameter to the worker pool is
rejected, the executor synchronously stores the synthesized failure
(wrapping the rejection error) into slot i, signals the completion barrier
for that case exactly once across the whole batch trace, releases the task
parameter in fully reset state, and the batch still runs to completion
with a full-length results array. -/
theorem c5_rejected_submission (svc : LocalService Ctx) (ctx : Ctx)
    (req : InferenceRequest) (evalCases : List EvalCase) (opts : Options Ctx)
    (reject : Nat → Option String) (sched : List Nat) (e : String) (i : Nat) (ec : EvalCase)
    (hpool : ensureEvalCaseInferencePool svc opts.evalCaseParallelism = .ok ())
    (hsched : sched.Perm (List.range evalCases.length))
    (hi : i < evalCases.length)
    (hcase : evalCases.get? i = some ec)
    (hrej : reject i = some e) :
    inferEvalCasesParallel svc ctx req evalCases opts reject sched =
      .ok (parallelFinalArray svc ctx req evalCases opts reject sched,
           parallelTrace svc ctx req evalCases opts reject sched) ∧
    (parallelFinalArray svc ctx req evalCases opts reject sched).length =
      evalCases.length ∧
    (parallelFinalArray svc ctx req evalCases opts reject sched)[i]? =
      some (some (submitFailureResult ctx req opts ec e)) ∧
    (parallelTrace svc ctx req evalCases opts reject sched).countP (isBarrierSignalAt i) = 1 ∧
    ExecEvent.paramRelease ((populateParam ctx req ec i).reset) ∈
      parallelTrace svc ctx req evalCases opts reject sched ∧
    (populateParam ctx req ec i).reset = zeroParam Ctx := by
  refine ⟨?_, parallelFinalArray_length _ _ _ _ _ _ _, ?_, ?_, ?_, rfl⟩
  · unfold inferEvalCasesParallel
    rw [hpool]
  · rw [parallelFinalArray_getElem _ _ _ _ _ _ _ hsched i hi]
    rw [parallelSlotValue, hcase, hrej]
  · rw [parallelTrace, List.countP_append, countP_flatMap, countP_flatMap]
    have hsub : ((List.range evalCases.length).map
        (fun j => (submitEventsAt ctx req evalCases reject j).countP
          (isBarrierSignalAt i))).sum = 1 := by
      rw [sum_map_single _ i _ (fun j hj =>
        submitEventsAt_barrier_count_ne ctx req evalCases reject i j hj)]
      rw [List.count_eq_one_of_mem (List.nodup_range _) (List.mem_range.mpr hi)]
      have hcase2 : evalCases[i]? = some ec := by
        rw [← List.get?_eq_getElem?]
        exact hcase
      simp [submitEventsAt, hrej, hcase2, isBarrierSignalAt, List.countP_cons]
    have hwork : (sched.map
        (fun j => (workerEventsAt svc ctx req evalCases opts reject j).countP
          (isBarrierSignalAt i))).sum = 0 := by
      rw [sum_map_single _ i _ (fun j hj =>
        workerEventsAt_barrier_count_ne svc ctx req evalCases opts reject i j hj)]
      have hwi : (workerEventsAt svc ctx req evalCases opts reject i).countP
          (isBarrierSignalAt i) = 0 := by
        simp [workerEventsAt, hrej]
      rw [hwi]
      simp
    rw [hsub, hwork]
  · rw [parallelTrace]
    apply List.mem_append_left
    apply List.mem_flatMap.mpr
    refine ⟨i, List.mem_range.mpr hi, ?_⟩
    have hcase2 : evalCases[i]? = some ec := by
      rw [← List.get?_eq_getElem?]
      exact hcase
    simp [submitEventsAt, hrej, hcase2]

/-- Witness for C5 at a concrete two-case batch whose first submission is
rejected. -/
theorem c5_rejected_submission_witness :
    (ensureEvalCaseInferencePool wSvc wOpts.evalCaseParallelism = .ok () ∧
     List.Perm [1, 0] (List.range ([wCase "a", wCase "b"] : List EvalCase).length) ∧
     0 < ([wCase "a", wCase "b"] : List EvalCase).length ∧
     ([wCase "a", wCase "b"] : List EvalCase).get? 0 = some (wCase "a") ∧
     (fun j => if j = 0 then some "pool overloaded" else none) 0 = some "pool overloaded") ∧
    (inferEvalCasesParallel wSvc () wReq [wCase "a", wCase "b"] wOpts
        (fun j => if j = 0 then some "pool overloaded" else none) [1, 0] =
      .ok (parallelFinalArray wSvc () wReq [wCase "a", wCase "b"] wOpts
            (fun j => if j = 0 then some "pool overloaded" else none) [1, 0],
           parallelTrace wSvc () wReq [wCase "a", wCase "b"] wOpts
            (fun j => if j = 0 then some "pool overloaded" else none) [1, 0]) ∧
    (parallelFinalArray wSvc () wReq [wCase "a", wCase "b"] wOpts
        (fun j => if j = 0 then some "pool overloaded" else none) [1, 0]).length =
      ([wCase "a", wCase "b"] : List EvalCase).length ∧
    (parallelFinalArray wSvc () wReq [wCase "a", wCase "b"] wOpts
        (fun j => if j = 0 then some "pool overloaded" else none) [1, 0])[0]? =
      some (some (submitFailureResult () wReq wOpts (wCase "a") "pool overloaded")) ∧
    (parallelTrace wSvc () wReq [wCase "a", wCase "b"] wOpts
        (fun j => if j = 0 then some "pool overloaded" else none) [1, 0]).countP
      (isBarrierSignalAt 0) = 1 ∧
    ExecEvent.paramRelease ((populateParam () wReq (wCase "a") 0).reset) ∈
      parallelTrace wSvc () wReq [wCase "a", wCase "b"] wOpts
        (fun j => if j = 0 then some "pool overloaded" else none) [1, 0] ∧
    (populateParam () wReq (wCase "a") 0).reset = zeroParam Unit) :=
  ⟨⟨by rfl, by decide, by decide, by rfl, by rfl⟩,
   c5_rejected_submission wSvc () wReq [wCase "a", wCase "b"] wOpts
     (fun j => if j = 0 then some "pool overloaded" else none) [1, 0]
     "pool overloaded" 0 (wCase "a") (by rfl) (by decide) (by decide) (by rfl) (by rfl)⟩

lemma strAppend_ne_empty_left (s t : String) (h : s ≠ "") : s ++ t ≠ "" := by
  intro he
  apply h
  have hd : (s ++ t).data = [] := by rw [he]
  rw [String.data_append] at hd
  have hs2 : s.data = [] := (List.append_eq_nil.mp hd).1
  apply String.ext
  rw [hs2]

lemma strAppend_ne_empty_right (s t : String) (h : t ≠ "") : s ++ t ≠ "" := by
  intro he
  apply h
  have hd : (s ++ t).data = [] := by rw [he]
  rw [String.data_append] at hd
  have ht2 : t.data = [] := (List.append_eq_nil.mp hd).2
  apply String.ext
  rw [ht2]

lemma caseMsgPrefix_ne_empty (evalCaseID sessionID : String) :
    caseMsgPrefix evalCaseID sessionID ≠ "" :=
  strAppend_ne_empty_right _ _ (by decide)

/-- Every failure the core records carries a non-empty message. -/
lemma inferenceEvalCaseCore_failed_msg (svc : LocalService Ctx) (c : Ctx)
    (req : InferenceRequest) (ec : EvalCase) (opts : Options Ctx) (sid : String) :
    (inferenceEvalCaseCore svc c req ec opts sid).1.1.status = .failed →
    (inferenceEvalCaseCore svc c req ec opts sid).1.1.errorMessage ≠ "" := by
  have hpre : caseMsgPrefix ec.evalID sid ≠ "" := caseMsgPrefix_ne_empty _ _
  simp only [inferenceEvalCaseCore]
  repeat' split
  all_goals intro h
  all_goals first
    | exact strAppend_ne_empty_left _ _ hpre
    | exact strAppend_ne_empty_left _ _ (strAppend_ne_empty_left _ _ hpre)
    | exact strAppend_ne_empty_left _ _ (strAppend_ne_empty_left _ _
        (strAppend_ne_empty_left _ _ hpre))
    | exact strAppend_ne_empty_left _ _ (strAppend_ne_empty_left _ _
        (strAppend_ne_empty_left _ _ (strAppend_ne_empty_left _ _ hpre)))
    | (refine absurd h ?_; intro hc; simp at hc)

/-- A before-case chain outcome is either no error or an error wrapped
with the literal callback prefix. -/
lemma runBeforeInferenceCaseCallbacks_shape (ctx : Ctx) (cb : Callbacks Ctx)
    (req : InferenceRequest) (evalCaseID sessionID : String) :
    (runBeforeInferenceCaseCallbacks ctx cb req evalCaseID sessionID).1.2 = none ∨
    ∃ x, (runBeforeInferenceCaseCallbacks ctx cb req evalCaseID sessionID).1.2 =
      some ("run before inference case callbacks (app=" ++ req.appName ++
        ", evalSetID=" ++ req.evalSetID ++ ", evalCaseID=" ++ evalCaseID ++
        ", sessionID=" ++ sessionID ++ "): " ++ x) := by
  cases hx : (cb.runBeforeInferenceCase ctx
      { request := req, evalCaseID := evalCaseID, sessionID := sessionID }).2 with
  | none =>
    left
    simp [runBeforeInferenceCaseCallbacks, hx]
  | some x =>
    right
    exact ⟨x, by simp [runBeforeInferenceCaseCallbacks, hx]⟩

/-- An after-case chain outcome is either no error or an error wrapped
with the literal callback prefix. -/
lemma runAfterInferenceCaseCallbacks_shape (ctx : Ctx) (cb : Callbacks Ctx)
    (req : InferenceRequest) (evalCaseID : String) (result : InferenceResult)
    (err : Option String) (startTime : Nat) :
    (runAfterInferenceCaseCallbacks ctx cb req evalCaseID result err startTime).1 = none ∨
    ∃ x, (runAfterInferenceCaseCallbacks ctx cb req evalCaseID result err startTime).1 =
      some ("run after inference case callbacks (app=" ++ req.appName ++
        ", evalSetID=" ++ req.evalSetID ++ ", evalCaseID=" ++ evalCaseID ++ "): " ++ x) := by
  cases hx : cb.runAfterInferenceCase ctx
      { request := req, result := result, error := err, startTime := startTime } with
  | none =>
    left
    simp [runAfterInferenceCaseCallbacks, hx]
  | some x =>
    right
    exact ⟨x, by simp [runAfterInferenceCaseCallbacks, hx]⟩

/-- Every failure the per-case pipeline reports carries a non-empty
message. -/
lemma inferenceEvalCase_failed_msg (svc : LocalService Ctx) (ctx : Ctx)
    (req : InferenceRequest) (evalCase : Option EvalCase) (opts : Options Ctx) :
    (inferenceEvalCase svc ctx req evalCase opts).1.status = .failed →
    (inferenceEvalCase svc ctx req evalCase opts).1.errorMessage ≠ "" := by
  cases evalCase with
  | none =>
    intro _
    exact (by decide : ("eval case is nil" : String) ≠ "")
  | some ec =>
    rcases runBeforeInferenceCaseCallbacks_shape ctx opts.callbacks req ec.evalID
        (sessionIDOf opts ctx) with hb | ⟨x, hb⟩
    · rcases runAfterInferenceCaseCallbacks_shape
          (runBeforeInferenceCaseCallbacks ctx opts.callbacks req ec.evalID
            (sessionIDOf opts ctx)).1.1 opts.callbacks req ec.evalID
          (inferenceEvalCaseCore svc
            (runBeforeInferenceCaseCallbacks ctx opts.callbacks req ec.evalID
              (sessionIDOf opts ctx)).1.1 req ec opts (sessionIDOf opts ctx)).1.1
          (inferenceEvalCaseCore svc
            (runBeforeInferenceCaseCallbacks ctx opts.callbacks req ec.evalID
              (sessionIDOf opts ctx)).1.1 req ec opts (sessionIDOf opts ctx)).1.2
          svc.clock with ha | ⟨y, ha⟩
      · simp only [inferenceEvalCase, hb, ha]
        exact inferenceEvalCaseCore_failed_msg svc _ req ec opts (sessionIDOf opts ctx)
      · simp only [inferenceEvalCase, hb, ha]
        intro _
        cases hce : (inferenceEvalCaseCore svc
            (runBeforeInferenceCaseCallbacks ctx opts.callbacks req ec.evalID
              (sessionIDOf opts ctx)).1.1 req ec opts (sessionIDOf opts ctx)).1.2 with
        | none =>
          simp only [newFailedInferenceResult, joinErrMessages, hce]
          exact strAppend_ne_empty_left _ _ (strAppend_ne_empty_right _ _ (by decide))
        | some m =>
          simp only [newFailedInferenceResult, joinErrMessages, hce]
          exact strAppend_ne_empty_left _ _ (strAppend_ne_empty_right _ _ (by decide))
    · simp only [inferenceEvalCase, hb]
      intro _
      exact strAppend_ne_empty_left _ _ (strAppend_ne_empty_right _ _ (by decide))

/-- The synthesized submit-failure result carries a non-empty message. -/
lemma submitFailureResult_msg (ctx : Ctx) (req : InferenceRequest) (opts : Options Ctx)
    (ec : EvalCase) (e : String) :
    (submitFailureResult ctx req opts ec e).errorMessage ≠ "" :=
  strAppend_ne_empty_left _ _ (strAppend_ne_empty_right _ _ (by decide))

/-- An element of a written results array is an original element or one of
the written values. -/
lemma mem_writeSlots (ws : List (Nat × InferenceResult))
    (arr : List (Option InferenceResult)) (x : Option InferenceResult)
    (hx : x ∈ writeSlots ws arr) : x ∈ arr ∨ ∃ p ∈ ws, x = some p.2 := by
  induction ws generalizing arr with
  | nil => exact .inl hx
  | cons p rest ih =>
    rcases ih (arr.set p.1 (some p.2)) hx with h | ⟨q, hq, he⟩
    · rcases List.mem_or_eq_of_mem_set h with h2 | h2
      · exact .inl h2
      · exact .inr ⟨p, List.mem_cons_self _ _, h2⟩
    · exact .inr ⟨q, List.mem_cons_of_mem _ hq, he⟩

/-- Every failed result the parallel strategy stores carries a non-empty
message. -/
lemma parallelFinalArray_failed_msg (svc : LocalService Ctx) (ctx : Ctx)
    (req : InferenceRequest) (evalCases : List EvalCase) (opts : Options Ctx)
    (reject : Nat → Option String) (sched : List Nat) :
    ∀ r : InferenceResult,
      some r ∈ parallelFinalArray svc ctx req evalCases opts reject sched →
      r.status = .failed → r.errorMessage ≠ "" := by
  intro r hr hf
  rcases mem_writeSlots _ _ _ hr with h | ⟨p, hp, he⟩
  · rcases mem_writeSlots _ _ _ h with h2 | ⟨q, hq, he⟩
    · exact absurd (List.eq_of_mem_replicate h2) (by simp)
    · obtain ⟨j, _, hj⟩ := List.mem_filterMap.mp hq
      cases h1 : reject j with
      | none => rw [h1] at hj; simp at hj
      | some e =>
        rw [h1] at hj
        cases h2c : evalCases.get? j with
        | none => rw [h2c] at hj; simp at hj
        | some ec =>
          rw [h2c] at hj
          simp only [Option.some.injEq] at hj
          subst hj
          have : r = submitFailureResult ctx req opts ec e := by
            injection he
          rw [this]
          exact submitFailureResult_msg ctx req opts ec e
  · obtain ⟨j, _, hj⟩ := List.mem_filterMap.mp hp
    cases h1 : reject j with
    | some e => rw [h1] at hj; simp at hj
    | none =>
      rw [h1] at hj
      cases h2c : evalCases.get? j with
      | none => rw [h2c] at hj; simp at hj
      | some ec =>
        rw [h2c] at hj
        simp only [Option.some.injEq] at hj
        subst hj
        have hre : r = (inferenceEvalCase svc ctx req (some ec) opts).1 := by
          injection he
        rw [hre] at hf ⊢
        exact inferenceEvalCase_failed_msg svc ctx req (some ec) opts hf

/-- Every failed result the serial strategy stores carries a non-empty
message. -/
lemma inferEvalCasesSerial_failed_msg (svc : LocalService Ctx) (ctx : Ctx)
    (req : InferenceRequest) (evalCases : List EvalCase) (opts : Options Ctx) :
    ∀ r : InferenceResult,
      some r ∈ (inferEvalCasesSerial svc ctx req evalCases opts).1 →
      r.status = .failed → r.errorMessage ≠ "" := by
  intro r hr hf
  rw [inferEvalCasesSerial] at hr
  obtain ⟨ec, _, he⟩ := List.mem_map.mp hr
  have hre : r = (inferenceEvalCase svc ctx req (some ec) opts).1 := by
    injection he.symm
  rw [hre] at hf ⊢
  exact inferenceEvalCase_failed_msg svc ctx req (some ec) opts hf

/-- A service whose eval-set manager fails at fetch time, with serial
execution. -/
def wSvcLoadFail : LocalService Unit :=
  { wSvc with
      evalSetManager := some (fun _ _ _ => .error "boom")
      evalCaseParallelInferenceEnabled := false }

/-- Counterexample to C3: with a valid request, successfully resolved
options and a before-batch callback chain that reports no error, a failure
of the eval-case source (neither a configuration error nor a before-batch
callback error) is still returned to the caller as the batch's own
error. -/
theorem c3_counterexample :
    validateInferenceRequest (some wReq) = none ∧
    resolveInferenceOptions wSvcLoadFail [] =
      .ok (effectiveInferenceOptions wSvcLoadFail []) ∧
    ((effectiveInferenceOptions wSvcLoadFail []).callbacks.runBeforeInferenceSet () wReq).2 =
      none ∧
    (Inference wSvcLoadFail () (some wReq) [] (fun _ => none) []).1 =
      .error "load inference eval cases: get eval set: boom" :=
  ⟨rfl, rfl, rfl, rfl⟩

/-- Successful option resolution with parallel inference enabled implies
the worker pool initialized successfully. -/
lemma resolve_ok_pool (svc : LocalService Ctx) (opt : List (ServiceOption Ctx))
    (h : resolveInferenceOptions svc opt = .ok (effectiveInferenceOptions svc opt))
    (hpar : (effectiveInferenceOptions svc opt).evalCaseParallelInferenceEnabled = true) :
    ensureEvalCaseInferencePool svc
      (effectiveInferenceOptions svc opt).evalCaseParallelism = .ok () := by
  simp only [resolveInferenceOptions] at h
  split_ifs at h
  cases hm : ensureEvalCaseInferencePool svc
      (effectiveInferenceOptions svc opt).evalCaseParallelism with
  | error e => simp [hm] at h
  | ok u => cases u; rfl

/-- The before-set wrapper reports no error exactly when the underlying
chain reports none. -/
lemma runBeforeInferenceSetCallbacks_none (ctx : Ctx) (cb : Callbacks Ctx)
    (req : InferenceRequest)
    (h : (cb.runBeforeInferenceSet ctx req).2 = none) :
    (runBeforeInferenceSetCallbacks ctx cb req).2 = none := by
  unfold runBeforeInferenceSetCallbacks
  simp [h]

/-- The after-set wrapper is a no-op when no hook errors. -/
lemma runAfterInferenceSetCallbacks_noop (ctx : Ctx) (cb : Callbacks Ctx)
    (req : InferenceRequest) (results : Option (List (Option InferenceResult)))
    (err : Option String) (startTime : Nat)
    (hafter : ∀ c a, cb.runAfterInferenceSet c a = none) :
    runAfterInferenceSetCallbacks ctx cb req results err startTime = none := by
  unfold runAfterInferenceSetCallbacks
  rw [hafter]

/-- C3 (amended): when the request validates, the options resolve, the
before-set callbacks succeed, the cases load, and the after-set callbacks
report no error, the batch returns success to the caller no matter how
many cases fail — every per-case failure is recorded only as a non-empty
string error message on the affected case's result.  (Conversely, as the
counterexample shows, load failures and after-set callback errors are
also returned as the batch's own error, beyond configuration and
before-batch errors.) -/
theorem c3_amended_batch_error_surface (svc : LocalService Ctx) (ctx : Ctx)
    (req : InferenceRequest) (opt : List (ServiceOption Ctx))
    (reject : Nat → Option String) (sched : List Nat) (evalCases : List EvalCase)
    (hname : req.appName ≠ "")
    (hsetid : req.evalSetID ≠ "")
    (hresolve : resolveInferenceOptions svc opt = .ok (effectiveInferenceOptions svc opt))
    (hbeforeset : ((effectiveInferenceOptions svc opt).callbacks.runBeforeInferenceSet
      ctx req).2 = none)
    (hload : loadInferenceEvalCases
      (runBeforeInferenceSetCallbacks ctx (effectiveInferenceOptions svc opt).callbacks
        req).1 req (effectiveInferenceOptions svc opt).evalSetManager = .ok evalCases)
    (hafterset : ∀ c a,
      (effectiveInferenceOptions svc opt).callbacks.runAfterInferenceSet c a = none) :
    (∃ results, (Inference svc ctx (some req) opt reject sched).1 = .ok results) ∧
    (∀ results, (Inference svc ctx (some req) opt reject sched).1 = .ok results →
      ∀ r : InferenceResult, some r ∈ results →
        r.status = .failed → r.errorMessage ≠ "") := by
  have hb2 := runBeforeInferenceSetCallbacks_none ctx
    (effectiveInferenceOptions svc opt).callbacks req hbeforeset
  have hnoop : ∀ res er, runAfterInferenceSetCallbacks
      (runBeforeInferenceSetCallbacks ctx (effectiveInferenceOptions svc opt).callbacks req).1
      (effectiveInferenceOptions svc opt).callbacks req res er svc.clock = none :=
    fun res er => runAfterInferenceSetCallbacks_noop _ _ _ _ _ _ hafterset
  by_cases hlen : evalCases.length = 0
  · have hval : (Inference svc ctx (some req) opt reject sched).1 = .ok [] := by
      simp only [Inference]
      rw [if_neg hname, if_neg hsetid]
      simp only [hresolve, hb2, hload]
      rw [if_pos hlen]
      simp only [hnoop]
    refine ⟨⟨[], hval⟩, ?_⟩
    intro results hres r hr _
    rw [hval] at hres
    cases hres
    cases hr
  · by_cases hpar : (effectiveInferenceOptions svc opt).evalCaseParallelInferenceEnabled = true
    · have hpool := resolve_ok_pool svc opt hresolve hpar
      have hval : (Inference svc ctx (some req) opt reject sched).1 =
          .ok (parallelFinalArray svc
            (runBeforeInferenceSetCallbacks ctx
              (effectiveInferenceOptions svc opt).callbacks req).1
            req evalCases (effectiveInferenceOptions svc opt) reject sched) := by
        simp only [Inference]
        rw [if_neg hname, if_neg hsetid]
        simp only [hresolve, hb2, hload]
        rw [if_neg hlen]
        simp only [inferEvalCases]
        rw [if_pos hpar]
        simp only [inferEvalCasesParallel, hpool, hnoop]
      refine ⟨⟨_, hval⟩, ?_⟩
      intro results hres r hr hf
      rw [hval] at hres
      cases hres
      exact parallelFinalArray_failed_msg svc _ req evalCases
        (effectiveInferenceOptions svc opt) reject sched r hr hf
    · have hval : (Inference svc ctx (some req) opt reject sched).1 =
          .ok (inferEvalCasesSerial svc
            (runBeforeInferenceSetCallbacks ctx
              (effectiveInferenceOptions svc opt).callbacks req).1
            req evalCases (effectiveInferenceOptions svc opt)).1 := by
        simp only [Inference]
        rw [if_neg hname, if_neg hsetid]
        simp only [hresolve, hb2, hload]
        rw [if_neg hlen]
        simp only [inferEvalCases]
        rw [if_neg hpar]
        simp only [hnoop]
      refine ⟨⟨_, hval⟩, ?_⟩
      intro results hres r hr hf
      rw [hval] at hres
      cases hres
      exact inferEvalCasesSerial_failed_msg svc _ req evalCases
        (effectiveInferenceOptions svc opt) r hr hf

/-- The witness service with serial execution and a one-case eval set. -/
def wSvcSerial : LocalService Unit :=
  { wSvc with evalCaseParallelInferenceEnabled := false }

/-- Witness for C3 (amended) at a concrete serial one-case batch. -/
theorem c3_amended_batch_error_surface_witness :
    (wReq.appName ≠ "" ∧
     wReq.evalSetID ≠ "" ∧
     resolveInferenceOptions wSvcSerial [] =
       .ok (effectiveInferenceOptions wSvcSerial []) ∧
     ((effectiveInferenceOptions wSvcSerial []).callbacks.runBeforeInferenceSet () wReq).2 =
       none ∧
     loadInferenceEvalCases
       (runBeforeInferenceSetCallbacks () (effectiveInferenceOptions wSvcSerial []).callbacks
         wReq).1 wReq (effectiveInferenceOptions wSvcSerial []).evalSetManager =
       .ok [wCase "case-1"] ∧
     (∀ c a, (effectiveInferenceOptions wSvcSerial []).callbacks.runAfterInferenceSet c a =
       none)) ∧
    ((∃ results, (Inference wSvcSerial () (some wReq) [] (fun _ => none) []).1 =
        .ok results) ∧
     (∀ results, (Inference wSvcSerial () (some wReq) [] (fun _ => none) []).1 =
        .ok results →
       ∀ r : InferenceResult, some r ∈ results →
         r.status = .failed → r.errorMessage ≠ "")) :=
  ⟨⟨by decide, by decide, rfl, rfl, rfl, fun _ _ => rfl⟩,
   c3_amended_batch_error_surface wSvcSerial () wReq [] (fun _ => none) [] [wCase "case-1"]
     (by decide) (by decide) rfl rfl rfl (fun _ _ => rfl)⟩

end EvalSvc
